import Mathlib

/-!
# bootymapper: the concurrent connection engine

A shallow embedding of `src/bootymapper.c`.  Bytes are natural numbers, byte
strings are `List Nat`.  The callbacks of the C program become functions on one
record, `config`, that holds the fields of `struct config` together with the
parts of the environment the callbacks act on (the live connection tasks, the
bytes written to standard output, the result of the next connect calls) and a
few ghost fields that only record history.

Modelling decisions, all about code outside `src/bootymapper.c`:

* the counters are C `int`; the model uses `Int` and does not model signed
  overflow, which needs 2^31 increments of one counter;
* libc and libevent calls are modelled by their documented results:
  `evbuffer_readln`, `strstr`, `printf` with `%s`, `inet_ntoa`, and `inet_addr`
  with the forms glibc accepts (one to four parts, decimal, octal or
  hexadecimal, trailing white space);
* `bufferevent_socket_connect` is modelled by its return value, drawn from the
  field `connect_errors`;
* `log_info`, `log_warn`, `print_status` and `perror` only write to the log and
  are left out; timers are events of the reactor.
-/

set_option linter.dupNamespace false

namespace Bootymapper

/-! ## C strings and libc -/

/-- The bytes of a C string stored at the start of `mem`: everything before the
first NUL byte. -/
def cstr (mem : List Nat) : List Nat :=
  mem.takeWhile (fun b => b != 0)

/-- libc `strstr(haystack, needle) != NULL` on the bytes of two C strings that
are already cut at their terminator: some suffix of `hay` starts with `needle`. -/
def strstr_bytes : List Nat → List Nat → Bool
  | [], needle => needle.isPrefixOf []
  | h :: t, needle => needle.isPrefixOf (h :: t) || strstr_bytes t needle

/-- libc `strstr(haystack, needle) != NULL`, both arguments given as the memory
they point to. -/
def strstr (hay needle : List Nat) : Bool :=
  strstr_bytes (cstr hay) (cstr needle)

/-- Decimal text of an octet (a number below 256). -/
def octet_text (n : Nat) : List Nat :=
  if n < 10 then [48 + n]
  else if n < 100 then [48 + n / 10, 48 + n % 10]
  else [48 + n / 100, 48 + (n / 10) % 10, 48 + n % 10]

/-- libc `inet_ntoa`: the dotted-quad text of an address.  The address is the
number whose four octets, most significant first, are the four parts. -/
def inet_ntoa (ip : Nat) : List Nat :=
  octet_text (ip / 16777216 % 256) ++ [46] ++ octet_text (ip / 65536 % 256) ++ [46] ++
    octet_text (ip / 256 % 256) ++ [46] ++ octet_text (ip % 256)

/-- The value `INADDR_NONE` that `inet_addr` returns for a malformed address. -/
def INADDR_NONE : Nat := 4294967295

/-- Value of a run of one to three decimal digits without a leading zero, when
it is an octet. -/
def parse_octet (ds : List Nat) : Option Nat :=
  if ds.all (fun d => decide (48 ≤ d) && decide (d ≤ 57)) then
    match ds with
    | [a] => some (a - 48)
    | [a, b] => if a = 48 then none else some ((a - 48) * 10 + (b - 48))
    | [a, b, c] =>
      if a = 48 then none
      else
        let v := (a - 48) * 100 + (b - 48) * 10 + (c - 48)
        if v < 256 then some v else none
    | _ => none
  else none

/-- Split a byte string at every occurrence of `sep`. -/
def split_on (sep : Nat) : List Nat → List (List Nat)
  | [] => [[]]
  | c :: rest =>
    if c = sep then [] :: split_on sep rest
    else
      match split_on sep rest with
      | [] => [[c]]
      | p :: ps => (c :: p) :: ps

/-- The address written in `line` when `line` is a dotted-quad in the sense of
the glossary of the spec, the canonical text of an IPv4 address: four decimal
octets without leading zeros, separated by dots. -/
def parse_dotted_quad (line : List Nat) : Option Nat :=
  match split_on 46 line with
  | [a, b, c, d] =>
    match parse_octet a, parse_octet b, parse_octet c, parse_octet d with
    | some x, some y, some z, some w => some (x * 16777216 + y * 65536 + z * 256 + w)
    | _, _, _, _ => none
  | _ => none

/-- Whether a line is a valid dotted-quad IPv4 address, in the words of the
spec. -/
def is_dotted_quad (line : List Nat) : Bool :=
  (parse_dotted_quad line).isSome

/-- C `isdigit` on a byte. -/
def isdigit (c : Nat) : Bool :=
  decide (48 ≤ c) && decide (c ≤ 57)

/-- C `isspace` on an ASCII byte: space, tab, newline, vertical tab, form feed,
carriage return. -/
def isspace (c : Nat) : Bool :=
  decide (c = 32) || (decide (9 ≤ c) && decide (c ≤ 13))

/-- Value of a byte read as a digit by `strtoul`: decimal digits and the
letters, upper or lower case, from ten on. -/
def digit_value (c : Nat) : Option Nat :=
  if 48 ≤ c ∧ c ≤ 57 then some (c - 48)
  else if 97 ≤ c ∧ c ≤ 122 then some (c - 97 + 10)
  else if 65 ≤ c ∧ c ≤ 90 then some (c - 65 + 10)
  else none

/-- The longest run of digits of the given base at the start of the text: its
value, continued from `acc`, and the text after it. -/
def digit_run (base : Nat) : Nat → List Nat → Nat × List Nat
  | acc, [] => (acc, [])
  | acc, c :: rest =>
    match digit_value c with
    | some v => if v < base then digit_run base (acc * base + v) rest else (acc, c :: rest)
    | none => (acc, c :: rest)

/-- libc `strtoul(cp, &endp, 0)` on a text that starts with a digit: the base
is 16 after `0x` or `0X` followed by a hexadecimal digit, 8 after a leading
`0`, and 10 otherwise.  The result is the value, not cut at `ULONG_MAX`, and
the text at `endp`. -/
def strtoul (cp : List Nat) : Nat × List Nat :=
  match cp with
  | c :: x :: h :: rest =>
    if c = 48 ∧ (x = 120 ∨ x = 88) ∧ (digit_value h).any (fun v => decide (v < 16)) then
      digit_run 16 0 (h :: rest)
    else if c = 48 then digit_run 8 0 cp
    else digit_run 10 0 cp
  | c :: _ => if c = 48 then digit_run 8 0 cp else digit_run 10 0 cp
  | [] => (0, [])

/-- The loop of libc `inet_aton` on the bytes of a C string.  `dots` is the
number of further dots allowed, `stored` are the parts already stored, one byte
each.  Every part is read with `strtoul`; a part followed by a dot must fit a
byte; the last part must be followed by the end of the string or by white
space and fills the bytes that are left. -/
def inet_aton_loop : Nat → List Nat → List Nat → Option Nat
  | dots, stored, cp =>
    match cp with
    | [] => none
    | c :: _ =>
      if !isdigit c then none
      else
        let (val, endp) := strtoul cp
        if val > 4294967295 then none
        else
          match endp with
          | e :: after =>
            if e = 46 then
              match dots with
              | 0 => none
              | d + 1 => if val > 255 then none else inet_aton_loop d (stored ++ [val]) after
            else if !(decide (e < 128) && isspace e) then none
            else if val > 4294967295 / 256 ^ stored.length then none
            else
              some (stored.getD 0 0 * 16777216 + stored.getD 1 0 * 65536 +
                stored.getD 2 0 * 256 + val)
          | [] =>
            if val > 4294967295 / 256 ^ stored.length then none
            else
              some (stored.getD 0 0 * 16777216 + stored.getD 1 0 * 65536 +
                stored.getD 2 0 * 256 + val)

/-- libc `inet_aton` on the C string in `line`: the address, as the number
whose four octets, most significant first, are the bytes of the address in
network order; `none` when the text is not accepted.  Accepted are one to four
parts separated by dots, each decimal, octal (leading `0`) or hexadecimal
(leading `0x`), followed by the end of the string or by white space. -/
def inet_aton (line : List Nat) : Option Nat :=
  inet_aton_loop 3 [] (cstr line)

/-- libc `inet_addr` on the C string in `line`: the address `inet_aton` reads,
and `INADDR_NONE` when it reads none. -/
def inet_addr (line : List Nat) : Nat :=
  match inet_aton line with
  | some ip => ip
  | none => INADDR_NONE

/-- libevent `evbuffer_readln(in, &len, EVBUFFER_EOL_LF)`: `none` when the
buffer holds no newline; otherwise the bytes before the first newline and the
buffer that is left once the line and its newline are drained. -/
def evbuffer_readln : List Nat → Option (List Nat × List Nat)
  | [] => none
  | c :: rest =>
    if c = 10 then some ([], rest)
    else
      match evbuffer_readln rest with
      | none => none
      | some (line, left) => some (c :: line, left)

/-- What `printf` with the given format and string arguments writes, for the
directives `%s` and `%%`.  The format ends at its first NUL byte.  `none`: the
format asks for more arguments than were passed (undefined behaviour in C) or
uses a directive other than `%s` and `%%`. -/
def printf_s : List Nat → List (List Nat) → Option (List Nat)
  | [], _ => some []
  | [c], _ => if c = 0 then some [] else if c = 37 then none else some [c]
  | c :: d :: rest, args =>
    if c = 0 then some []
    else if c = 37 then
      if d = 115 then
        match args with
        | [] => none
        | a :: more => (printf_s rest more).map (fun out => cstr a ++ out)
      else if d = 37 then (printf_s rest args).map (fun out => 37 :: out)
      else none
    else (printf_s (d :: rest) args).map (fun out => c :: out)

/-! ## The data model -/

/-- The C enum of `struct state`. -/
inductive Phase where
  | CONNECTING
  | CONNECTED
  | RECEIVED
  deriving DecidableEq, Repr

/-- The C `struct state` of one connection task (its `conf` pointer is the one
shared `config`). -/
structure state where
  ip : Nat
  state : Phase
  deriving DecidableEq, Repr

/-- The C `struct stats_st`. -/
structure stats_st where
  found : Int
  init_connected_hosts : Int
  connected_hosts : Int
  conn_timed_out : Int
  read_timed_out : Int
  timed_out : Int
  completed_hosts : Int
  deriving DecidableEq, Repr

/-- The C `struct config`, followed by the environment of the callbacks and by
ghost fields.

C fields: `port` to `stats`; `stdin_in` is the input buffer of `stdin_bev`;
`search_string` and `send_str` are `none` for a NULL pointer and otherwise the
memory pointed to.

Environment: `live` are the tasks whose bufferevent exists, in creation order;
`connect_errors` says for the coming calls of `bufferevent_socket_connect`
whether the call returns an error (`true`), a call beyond the list succeeds;
`exit_code` is `some c` once the process has called `exit(c)`; `stdout` are the
bytes written to standard output; `wire` logs, for each connected event with a
`send_str`, the target and what `evbuffer_add_printf` produced.

Ghost: `admitted` lists the addresses passed to `grab_banner`, in call order;
`admission_failures` counts the `grab_banner` calls whose connect returned an
error; `peak_running` is the largest value `current_running` has taken. -/
structure config where
  port : Nat
  connect_timeout : Int
  read_timeout : Int
  current_running : Int
  max_concurrent : Int
  stdin_in : List Nat
  stdin_closed : Bool
  search_string : Option (List Nat)
  max_read_size : Int
  format : Int
  send_str : Option (List Nat)
  stats : stats_st
  live : List state
  connect_errors : List Bool
  exit_code : Option Nat
  stdout : List Nat
  wire : List (Nat × Option (List Nat))
  admitted : List Nat
  admission_failures : Int
  peak_running : Int
  deriving DecidableEq, Repr

/-! ## The callbacks -/

/-- C `decrement_cur_running`, with the callback it re-enters passed as
`readcb`.  `free(st)` has no counterpart: the task left `live` when its
bufferevent was freed.  Once a nested call has exited the process nothing
further runs. -/
def decrement_cur_running_with (readcb : config → config) (conf : config) : config :=
  let c1 := { conf with current_running := conf.current_running - 1 }
  let c2 := if c1.stdin_in.length > 0 then readcb c1 else c1
  if c2.exit_code.isSome then c2
  else if c2.stdin_closed && c2.current_running == 0 then { c2 with exit_code := some 0 }
  else c2

/-- C `grab_banner` for a task with address `ip`, with the callback that
`decrement_cur_running` re-enters passed as `readcb`. -/
def grab_banner_with (readcb : config → config) (conf : config) (ip : Nat) : config :=
  let c1 := { conf with
    stats := { conf.stats with init_connected_hosts := conf.stats.init_connected_hosts + 1 },
    admitted := conf.admitted ++ [ip] }
  match c1.connect_errors with
  | true :: later =>
    decrement_cur_running_with readcb
      { c1 with connect_errors := later, admission_failures := c1.admission_failures + 1 }
  | false :: later =>
    { c1 with connect_errors := later, live := c1.live ++ [{ ip := ip, state := Phase.CONNECTING }] }
  | [] => { c1 with live := c1.live ++ [{ ip := ip, state := Phase.CONNECTING }] }

/-- C `stdin_readcb`, the loop unrolled at most `fuel` times.  Every round
drains a line from `stdin_in`, so `stdin_in.length + 1` rounds are never used
up (`stdin_readcb_aux_fuel`). -/
def stdin_readcb_aux : Nat → config → config
  | 0, conf => conf
  | fuel + 1, conf =>
    if conf.current_running < conf.max_concurrent ∧ conf.stdin_in.length > 0 then
      match evbuffer_readln conf.stdin_in with
      | none => conf
      | some (line, left) =>
        let c1 := { conf with
          stdin_in := left,
          current_running := conf.current_running + 1,
          peak_running := max conf.peak_running (conf.current_running + 1) }
        let c2 := grab_banner_with (stdin_readcb_aux fuel) c1 (inet_addr line)
        if c2.exit_code.isSome then c2 else stdin_readcb_aux fuel c2
    else conf

/-- C `stdin_readcb`. -/
def stdin_readcb (conf : config) : config :=
  stdin_readcb_aux (conf.stdin_in.length + 1) conf

/-- C `decrement_cur_running`. -/
def decrement_cur_running (conf : config) : config :=
  decrement_cur_running_with stdin_readcb conf

/-- C `grab_banner`. -/
def grab_banner (conf : config) (ip : Nat) : config :=
  grab_banner_with stdin_readcb conf ip

/-- C `stdin_eventcb`; `eof` says whether `events` has `BEV_EVENT_EOF`. -/
def stdin_eventcb (conf : config) (eof : Bool) : config :=
  if eof then
    let c1 := { conf with stdin_closed := true }
    if c1.current_running == 0 then { c1 with exit_code := some 0 } else c1
  else conf

/-- C `connect_cb` for the task at position `i` of `live`; `connected` says
whether `events` has `BEV_EVENT_CONNECTED`. -/
def connect_cb (conf : config) (i : Nat) (connected : Bool) : config :=
  match conf.live[i]? with
  | none => conf
  | some st =>
    if connected then
      let c1 :=
        match conf.send_str with
        | some fmt =>
          { conf with wire := conf.wire ++
              [(st.ip, printf_s fmt
                [inet_ntoa st.ip, inet_ntoa st.ip, inet_ntoa st.ip, inet_ntoa st.ip])] }
        | none => conf
      { c1 with
        live := c1.live.set i { st with state := Phase.CONNECTED },
        stats := { c1.stats with connected_hosts := c1.stats.connected_hosts + 1 } }
    else
      let c1 :=
        if st.state = Phase.CONNECTED then
          { conf with stats := { conf.stats with read_timed_out := conf.stats.read_timed_out + 1 } }
        else
          { conf with stats := { conf.stats with conn_timed_out := conf.stats.conn_timed_out + 1 } }
      let c2 := { c1 with live := c1.live.eraseIdx i }
      let c3 := { c2 with stats := { c2.stats with timed_out := c2.stats.timed_out + 1 } }
      decrement_cur_running c3

/-- The text `read_cb` prints for a match: `printf("%s\n", inet_ntoa(addr))`
when `format == 1`, else `printf("%s ", inet_ntoa(addr))`, `buf[len] = 0`,
`printf("%s\n", buf)`. -/
def emit_record (format : Int) (ip : Nat) (data : List Nat) : List Nat :=
  if format = 1 then cstr (inet_ntoa ip) ++ [10]
  else (cstr (inet_ntoa ip) ++ [32]) ++ (cstr (data ++ [0]) ++ [10])

/-- Modelled from the spec: `log_fatal` of `logger.h`, which is not among the
sources: the engine logs and aborts.  The process ends with exit code 1. -/
def log_fatal (conf : config) : config :=
  { conf with exit_code := some 1 }

/-- C `read_cb` for the task at position `i` of `live`.  `data` is the content
of the input buffer of its bufferevent.  `buf_ok` says whether `malloc`
returned a buffer.  `junk` are the bytes that follow the `len` copied bytes in
the memory of `buf` when `strstr` runs: `buf[len]` is written only after the
search, so the search reads them. -/
def read_cb (conf : config) (i : Nat) (data junk : List Nat) (buf_ok : Bool) : config :=
  match conf.live[i]? with
  | none => conf
  | some st =>
    if data.length > 0 then
      let c1 := { conf with live := conf.live.set i { st with state := Phase.RECEIVED } }
      if !buf_ok then log_fatal c1
      else
        let buf := data ++ junk
        let c2 :=
          if c1.search_string.isSome && strstr buf (c1.search_string.getD []) then
            { c1 with
              stdout := c1.stdout ++ emit_record c1.format st.ip data,
              stats := { c1.stats with found := c1.stats.found + 1 } }
          else if c1.search_string.isNone then
            { c1 with
              stdout := c1.stdout ++ emit_record c1.format st.ip data,
              stats := { c1.stats with found := c1.stats.found + 1 } }
          else c1
        let c3 := { c2 with stats := { c2.stats with completed_hosts := c2.stats.completed_hosts + 1 } }
        decrement_cur_running { c3 with live := c3.live.eraseIdx i }
    else
      decrement_cur_running { conf with live := conf.live.eraseIdx i }

/-! ## The reactor -/

/-- What the event loop can deliver.

* `stdin_data bytes`: `bytes` arrived on standard input; they are appended to
  the input buffer and `stdin_readcb` runs.
* `stdin_event eof`: `stdin_eventcb` runs.
* `connect_event i connected`: `connect_cb` runs for task `i`, with
  `BEV_EVENT_CONNECTED` or with an error, end-of-file or timeout event.
* `read_event i data junk buf_ok`: `read_cb` runs for task `i`. -/
inductive Event where
  | stdin_data (bytes : List Nat)
  | stdin_event (eof : Bool)
  | connect_event (i : Nat) (connected : Bool)
  | read_event (i : Nat) (data junk : List Nat) (buf_ok : Bool)
  deriving DecidableEq, Repr

/-- One turn of `event_base_dispatch`.  A process that has exited runs no
callback. -/
def step (conf : config) (e : Event) : config :=
  if conf.exit_code.isSome then conf
  else
    match e with
    | Event.stdin_data bytes => stdin_readcb { conf with stdin_in := conf.stdin_in ++ bytes }
    | Event.stdin_event eof => stdin_eventcb conf eof
    | Event.connect_event i connected => connect_cb conf i connected
    | Event.read_event i data junk buf_ok => read_cb conf i data junk buf_ok

/-- The engine after a sequence of events. -/
def run (conf : config) (evs : List Event) : config :=
  evs.foldl step conf

/-- The state `main` sets up before `event_base_dispatch`: nothing running, all
counters zero, standard input open and empty.  The arguments are what the
command line and the environment decide. -/
def init (port : Nat) (connect_timeout read_timeout max_concurrent max_read_size format : Int)
    (search_string send_str : Option (List Nat)) (connect_errors : List Bool) : config :=
  { port := port
    connect_timeout := connect_timeout
    read_timeout := read_timeout
    current_running := 0
    max_concurrent := max_concurrent
    stdin_in := []
    stdin_closed := false
    search_string := search_string
    max_read_size := max_read_size
    format := format
    send_str := send_str
    stats := ⟨0, 0, 0, 0, 0, 0, 0⟩
    live := []
    connect_errors := connect_errors
    exit_code := none
    stdout := []
    wire := []
    admitted := []
    admission_failures := 0
    peak_running := 0 }

/-- The event respects the order of the transition table for the task it is
for: the connected event comes to a task that is connecting, bytes become
readable on a task that is connected. -/
def event_in_order (conf : config) : Event → Bool
  | Event.stdin_data _ => true
  | Event.stdin_event _ => true
  | Event.connect_event i connected =>
    match conf.live[i]? with
    | none => true
    | some st => !connected || decide (st.state = Phase.CONNECTING)
  | Event.read_event i _ _ _ =>
    match conf.live[i]? with
    | none => true
    | some st => decide (st.state = Phase.CONNECTED)

/-- Every event of the sequence respects the per-connection order. -/
def in_order : config → List Event → Bool
  | _, [] => true
  | conf, e :: es => event_in_order conf e && in_order (step conf e) es

/-! ## Proof devices: the re-entrant chain as a sequence of small steps -/

/-- State after a round of the `stdin_readcb` loop whose connect call
succeeded. -/
def admit_ok_state (s : config) (line left : List Nat) : config :=
  { s with
    stdin_in := left,
    current_running := s.current_running + 1,
    peak_running := max s.peak_running (s.current_running + 1),
    stats := { s.stats with init_connected_hosts := s.stats.init_connected_hosts + 1 },
    admitted := s.admitted ++ [inet_addr line],
    connect_errors := s.connect_errors.tail,
    live := s.live ++ [{ ip := inet_addr line, state := Phase.CONNECTING }] }

/-- State of a round of the `stdin_readcb` loop whose connect call failed, right
after the decrement in `decrement_cur_running`. -/
def admit_fail_state (s : config) (line left : List Nat) : config :=
  { s with
    stdin_in := left,
    current_running := s.current_running + 1 - 1,
    peak_running := max s.peak_running (s.current_running + 1),
    stats := { s.stats with init_connected_hosts := s.stats.init_connected_hosts + 1 },
    admitted := s.admitted ++ [inet_addr line],
    connect_errors := s.connect_errors.tail,
    admission_failures := s.admission_failures + 1 }

/-- The small steps the chain `stdin_readcb` / `grab_banner` /
`decrement_cur_running` is made of. -/
inductive Micro : config → config → Prop where
  | admit_ok (s : config) (line left : List Nat) (hrun : s.exit_code = none)
      (hlt : s.current_running < s.max_concurrent)
      (hrd : evbuffer_readln s.stdin_in = some (line, left)) :
      Micro s (admit_ok_state s line left)
  | admit_fail (s : config) (line left : List Nat) (hrun : s.exit_code = none)
      (hlt : s.current_running < s.max_concurrent)
      (hrd : evbuffer_readln s.stdin_in = some (line, left)) :
      Micro s (admit_fail_state s line left)
  | exit0 (s : config) (hrun : s.exit_code = none) (hclosed : s.stdin_closed = true)
      (hzero : s.current_running = 0) :
      Micro s { s with exit_code := some 0 }

/-- Sequences of small steps. -/
def Chain : config → config → Prop := Relation.ReflTransGen Micro

/-- The part of `decrement_cur_running` after the decrement. -/
def decrement_tail (readcb : config → config) (c1 : config) : config :=
  let c2 := if c1.stdin_in.length > 0 then readcb c1 else c1
  if c2.exit_code.isSome then c2
  else if c2.stdin_closed && c2.current_running == 0 then { c2 with exit_code := some 0 }
  else c2


/-- Whether `read_cb` takes one of its two printing branches: `search_string`
is set and `strstr` finds it in `buf`, or `search_string` is NULL. -/
def matched (s : config) (data junk : List Nat) : Bool :=
  (s.search_string.isSome && strstr (data ++ junk) (s.search_string.getD [])) ||
    s.search_string.isNone

/-- State after `connect_cb` with `BEV_EVENT_CONNECTED` for task `i`. -/
def connected_state (s : config) (i : Nat) (st : state) : config :=
  { s with
    wire :=
      match s.send_str with
      | some fmt => s.wire ++
          [(st.ip, printf_s fmt [inet_ntoa st.ip, inet_ntoa st.ip, inet_ntoa st.ip, inet_ntoa st.ip])]
      | none => s.wire,
    live := s.live.set i { st with state := Phase.CONNECTED },
    stats := { s.stats with connected_hosts := s.stats.connected_hosts + 1 } }

/-- State inside `connect_cb` without `BEV_EVENT_CONNECTED` for task `i`, right
after the decrement in `decrement_cur_running`. -/
def timeout_state (s : config) (i : Nat) (st : state) : config :=
  { s with
    stats := { s.stats with
      read_timed_out :=
        if st.state = Phase.CONNECTED then s.stats.read_timed_out + 1 else s.stats.read_timed_out,
      conn_timed_out :=
        if st.state = Phase.CONNECTED then s.stats.conn_timed_out else s.stats.conn_timed_out + 1,
      timed_out := s.stats.timed_out + 1 },
    live := s.live.eraseIdx i,
    current_running := s.current_running - 1 }

/-- State after `read_cb` for task `i` when `malloc` fails. -/
def fatal_state (s : config) (i : Nat) (st : state) : config :=
  { s with
    live := s.live.set i { st with state := Phase.RECEIVED },
    exit_code := some 1 }

/-- State inside `read_cb` for task `i` with a response of one or more bytes,
right after the decrement in `decrement_cur_running`. -/
def received_state (s : config) (i : Nat) (st : state) (data junk : List Nat) : config :=
  { s with
    stdout :=
      if matched s data junk then s.stdout ++ emit_record s.format st.ip data else s.stdout,
    stats := { s.stats with
      found := if matched s data junk then s.stats.found + 1 else s.stats.found,
      completed_hosts := s.stats.completed_hosts + 1 },
    live := (s.live.set i { st with state := Phase.RECEIVED }).eraseIdx i,
    current_running := s.current_running - 1 }

/-- State inside `read_cb` for task `i` with an empty input buffer, right after
the decrement in `decrement_cur_running`. -/
def zero_state (s : config) (i : Nat) : config :=
  { s with live := s.live.eraseIdx i, current_running := s.current_running - 1 }

/-- What an event does before the chain of small steps starts.  The flag says
whether the event ends in `decrement_cur_running`. -/
inductive Onset : config → Event → config → Bool → Prop where
  | data (s : config) (bytes : List Nat) :
      Onset s (Event.stdin_data bytes) { s with stdin_in := s.stdin_in ++ bytes } false
  | eof (s : config) :
      Onset s (Event.stdin_event true) { s with stdin_closed := true } false
  | no_eof (s : config) : Onset s (Event.stdin_event false) s false
  | connect_gone (s : config) (i : Nat) (connected : Bool) (h : s.live[i]? = none) :
      Onset s (Event.connect_event i connected) s false
  | read_gone (s : config) (i : Nat) (data junk : List Nat) (buf_ok : Bool)
      (h : s.live[i]? = none) :
      Onset s (Event.read_event i data junk buf_ok) s false
  | connected (s : config) (i : Nat) (st : state) (h : s.live[i]? = some st) :
      Onset s (Event.connect_event i true) (connected_state s i st) false
  | timeout (s : config) (i : Nat) (st : state) (h : s.live[i]? = some st) :
      Onset s (Event.connect_event i false) (timeout_state s i st) true
  | fatal (s : config) (i : Nat) (st : state) (data junk : List Nat)
      (h : s.live[i]? = some st) (hd : data ≠ []) :
      Onset s (Event.read_event i data junk false) (fatal_state s i st) false
  | received (s : config) (i : Nat) (st : state) (data junk : List Nat)
      (h : s.live[i]? = some st) (hd : data ≠ []) :
      Onset s (Event.read_event i data junk true) (received_state s i st data junk) true
  | zero (s : config) (i : Nat) (st : state) (junk : List Nat) (buf_ok : Bool)
      (h : s.live[i]? = some st) :
      Onset s (Event.read_event i [] junk buf_ok) (zero_state s i) true

/-- The test at the end of `decrement_cur_running` has been made: a process
that still runs has standard input open or a task in flight. -/
def Checked (s : config) : Prop :=
  s.exit_code = none → ¬ (s.stdin_closed = true ∧ s.current_running = 0)

/-- Number of live tasks that are still connecting. -/
def connecting : List state → Int
  | [] => 0
  | t :: ts => (if t.state = Phase.CONNECTING then 1 else 0) + connecting ts

/-- The accounting of admitted tasks: `current_running` counts the live tasks,
every admitted target is connected, timed out while connecting, failed at
admission or is still connecting, and a task is in state `RECEIVED` only in a
process that has exited. -/
def Accounted (s : config) : Prop :=
  s.current_running = s.live.length ∧
  s.stats.init_connected_hosts =
    s.stats.connected_hosts + s.stats.conn_timed_out + s.admission_failures + connecting s.live ∧
  (s.exit_code = none → ∀ t ∈ s.live, t.state ≠ Phase.RECEIVED)

/-- The timeout counters add up. -/
def Partitioned (s : config) : Prop :=
  s.stats.timed_out = s.stats.conn_timed_out + s.stats.read_timed_out

/-- Exit bookkeeping: `current_running` counts the live tasks, exit code 0 was
taken with standard input closed and nothing running, and any other exit left
a task behind. -/
def Settled (s : config) : Prop :=
  s.current_running = s.live.length ∧
  (s.exit_code = some 0 → s.stdin_closed = true ∧ s.current_running = 0) ∧
  (∀ c, s.exit_code = some c → c ≠ 0 → 1 ≤ s.current_running)

/-- An exit reached inside the chain is the clean one. -/
def CleanExit (s : config) : Prop :=
  ∀ c, s.exit_code = some c → c = 0 ∧ s.stdin_closed = true ∧ s.current_running = 0

/-- The buffer made of the given lines, each followed by a newline. -/
def unlines : List (List Nat) → List Nat
  | [] => []
  | l :: ls => l ++ 10 :: unlines ls

/-- What the chain has consumed since `s0`: whole lines from the front of the
input buffer, whose addresses were appended to `admitted` in the same order. -/
def Consumed (s0 s : config) : Prop :=
  ∃ ls : List (List Nat), s0.stdin_in = unlines ls ++ s.stdin_in ∧ (∀ l ∈ ls, 10 ∉ l) ∧
    s.admitted = s0.admitted ++ ls.map inet_addr

/-- What the chain leaves alone: the output, the log of payloads, the counters
other than `init_connected_hosts`; and it only appends to `live`. -/
def Framed (a b : config) : Prop :=
  b.stdout = a.stdout ∧ b.wire = a.wire ∧
  b.stats.found = a.stats.found ∧ b.stats.completed_hosts = a.stats.completed_hosts ∧
  b.stats.read_timed_out = a.stats.read_timed_out ∧ b.stats.timed_out = a.stats.timed_out ∧
  b.stats.conn_timed_out = a.stats.conn_timed_out ∧
  b.stats.connected_hosts = a.stats.connected_hosts ∧
  ∃ added, b.live = a.live ++ added

/-- What the chain adds: targets at the end of `admitted`, each counted once in
`init_connected_hosts` and once in `current_running` or in
`admission_failures`. -/
def Grown (a b : config) : Prop :=
  ∃ more : List Nat, b.admitted = a.admitted ++ more ∧
    b.stats.init_connected_hosts = a.stats.init_connected_hosts + more.length ∧
    b.current_running + b.admission_failures =
      a.current_running + a.admission_failures + more.length

/-- A state with one connected task for 1.2.3.4: the given configuration after
the line `1.2.3.4` was read and the connection was made. -/
def one_connected (format : Int) (search_string : Option (List Nat)) : config :=
  run (init 22 5 5 10 16777216 format search_string none [])
    [Event.stdin_data [49, 46, 50, 46, 51, 46, 52, 10], Event.connect_event 0 true]

/-- The initial state with the one malformed line `x` in the input buffer. -/
def malformed_input : config :=
  { init 22 5 5 10 16777216 0 none none [] with stdin_in := [120, 10] }

/-- The template rendering in the words of the spec: the first `budget`
occurrences of the address placeholder `%s` are replaced by `rep`, later
occurrences and all other bytes are copied. -/
def spec_render : Nat → List Nat → List Nat → List Nat
  | _, _, [] => []
  | _, _, [c] => [c]
  | budget, rep, c :: d :: rest =>
    if c = 37 ∧ d = 115 then
      match budget with
      | 0 => 37 :: 115 :: spec_render 0 rep rest
      | k + 1 => rep ++ spec_render k rep rest
    else c :: spec_render budget rep (d :: rest)

/-- Number of occurrences of the placeholder `%s`, read left to right. -/
def placeholders : List Nat → Nat
  | [] => 0
  | [_] => 0
  | c :: d :: rest =>
    if c = 37 ∧ d = 115 then 1 + placeholders rest else placeholders (d :: rest)

/-- A template without NUL bytes in which every `%` starts a placeholder `%s`. -/
def plain_template : List Nat → Bool
  | [] => true
  | [c] => decide (c ≠ 0) && decide (c ≠ 37)
  | c :: d :: rest =>
    if c = 37 then decide (d = 115) && plain_template rest
    else decide (c ≠ 0) && plain_template (d :: rest)

/-- A state with one connecting task for 1.2.3.4 and the given `send_str`. -/
def one_connecting (send_str : Option (List Nat)) : config :=
  run (init 22 5 5 10 16777216 0 none send_str [])
    [Event.stdin_data [49, 46, 50, 46, 51, 46, 52, 10]]

/-- A state below the cap of 2 with three lines buffered; the first connect
call will fail. -/
def three_lines : config :=
  { init 22 5 5 2 16777216 0 none none [true, false] with
    stdin_in := [49, 46, 50, 46, 51, 46, 52, 10, 120, 10, 53, 46, 54, 46, 55, 46, 56, 10] }

/-- Scenario 2 of the spec: `127.0.0.1`, server sends `HELLO\n`. -/
def scenario2 : List Event :=
  [Event.stdin_data [49, 50, 55, 46, 48, 46, 48, 46, 49, 10],
   Event.connect_event 0 true,
   Event.read_event 0 [72, 69, 76, 76, 79, 10] [] true,
   Event.stdin_event true]

/-! ## The model on small inputs -/

example : inet_ntoa 2130706433 = [49, 50, 55, 46, 48, 46, 48, 46, 49] := by decide
example : inet_addr [49, 50, 55, 46, 48, 46, 48, 46, 49] = 2130706433 := by decide
example : inet_addr [120] = INADDR_NONE := by decide
example : inet_addr [49, 46, 50, 46, 51, 46, 52, 13] = 16909060 := by decide
example : inet_addr [49, 50, 55, 46, 49] = 2130706433 := by decide
example : inet_addr [48, 49, 46, 50, 46, 51, 46, 52] = 16909060 := by decide
example : inet_addr [48, 120, 55, 102, 46, 49] = 2130706433 := by decide
example : inet_addr [49, 46, 50, 46, 51, 46, 52, 46] = INADDR_NONE := by decide
example : inet_addr [49, 46, 50, 46, 51, 46, 50, 53, 54] = INADDR_NONE := by decide
example : inet_addr [48, 56] = INADDR_NONE := by decide
example : inet_addr [49, 46, 50, 46, 51, 46, 52, 120] = INADDR_NONE := by decide
example : evbuffer_readln [49, 10, 50] = some ([49], [50]) := by decide
example : printf_s [71, 37, 115, 37, 37] [[49], [50]] = some [71, 49, 37] := by decide
example : strstr [72, 0, 83] [83] = false := by decide

example : (run (init 80 5 5 4 16777216 0 none none []) scenario2).stdout =
    [49, 50, 55, 46, 48, 46, 48, 46, 49, 32, 72, 69, 76, 76, 79, 10, 10] := by decide
example : (run (init 80 5 5 4 16777216 0 none none []) scenario2).exit_code = some 0 := by decide

/-! ## Lemmas on the chain -/

theorem Chain.refl (s : config) : Chain s s := Relation.ReflTransGen.refl

theorem Chain.trans {a b c : config} (h1 : Chain a b) (h2 : Chain b c) : Chain a c :=
  Relation.ReflTransGen.trans h1 h2

theorem Chain.single {a b : config} (h : Micro a b) : Chain a b :=
  Relation.ReflTransGen.single h

theorem Chain.invariant {P : config → Prop} (hP : ∀ a b, Micro a b → P a → P b)
    {s t : config} (h : Chain s t) (hs : P s) : P t := by
  induction h with
  | refl => exact hs
  | tail _ hm ih => exact hP _ _ hm ih

theorem decrement_with_eq (f : config → config) (s : config) :
    decrement_cur_running_with f s =
      decrement_tail f { s with current_running := s.current_running - 1 } := rfl

theorem grab_banner_ok (f : config → config) (s : config) (line left : List Nat)
    (h : ∀ later, s.connect_errors ≠ true :: later) :
    grab_banner_with f
      { s with
        stdin_in := left,
        current_running := s.current_running + 1,
        peak_running := max s.peak_running (s.current_running + 1) } (inet_addr line)
      = admit_ok_state s line left := by
  unfold grab_banner_with admit_ok_state
  cases hc : s.connect_errors with
  | nil => simp [hc]
  | cons b later =>
    cases b with
    | true => exact absurd hc (h later)
    | false => simp [hc]

theorem grab_banner_fail (f : config → config) (s : config) (line left : List Nat)
    (later : List Bool) (h : s.connect_errors = true :: later) :
    grab_banner_with f
      { s with
        stdin_in := left,
        current_running := s.current_running + 1,
        peak_running := max s.peak_running (s.current_running + 1) } (inet_addr line)
      = decrement_tail f (admit_fail_state s line left) := by
  unfold grab_banner_with admit_fail_state
  simp [h, decrement_with_eq]

theorem chain_decrement_tail (f : config → config)
    (hf : ∀ x, x.exit_code = none → Chain x (f x)) (c1 : config) (hrun : c1.exit_code = none) :
    Chain c1 (decrement_tail f c1) := by
  unfold decrement_tail
  have h2 : Chain c1 (if c1.stdin_in.length > 0 then f c1 else c1) := by
    split
    · exact hf c1 hrun
    · exact Chain.refl c1
  generalize (if c1.stdin_in.length > 0 then f c1 else c1) = c2 at h2
  simp only []
  split
  · exact h2
  · rename_i hne
    split
    · rename_i hchk
      simp only [Bool.and_eq_true, beq_iff_eq] at hchk
      refine Chain.trans h2 (Chain.single (Micro.exit0 c2 ?_ hchk.1 hchk.2))
      cases he : c2.exit_code with
      | none => rfl
      | some c => simp [he] at hne
    · exact h2

theorem chain_aux (n : Nat) : ∀ s : config, s.exit_code = none → Chain s (stdin_readcb_aux n s) := by
  induction n with
  | zero => intro s _; exact Chain.refl s
  | succ n ih =>
    intro s hrun
    unfold stdin_readcb_aux
    split
    · rename_i hg
      split
      · exact Chain.refl s
      · rename_i line left hrd
        simp only []
        by_cases hfail : ∃ later, s.connect_errors = true :: later
        · obtain ⟨later, hl⟩ := hfail
          rw [grab_banner_fail _ s line left later hl]
          have hrun1 : (admit_fail_state s line left).exit_code = none := hrun
          have hc := chain_decrement_tail (stdin_readcb_aux n) ih _ hrun1
          have hm : Chain s (admit_fail_state s line left) :=
            Chain.single (Micro.admit_fail s line left hrun hg.1 hrd)
          split
          · exact Chain.trans hm hc
          · rename_i hne
            refine Chain.trans (Chain.trans hm hc) (ih _ ?_)
            cases he : (decrement_tail (stdin_readcb_aux n) (admit_fail_state s line left)).exit_code with
            | none => rfl
            | some c => simp [he] at hne
        · have hok : ∀ later, s.connect_errors ≠ true :: later := fun later hl => hfail ⟨later, hl⟩
          rw [grab_banner_ok _ s line left hok]
          have hm : Chain s (admit_ok_state s line left) :=
            Chain.single (Micro.admit_ok s line left hrun hg.1 hrd)
          have hrun1 : (admit_ok_state s line left).exit_code = none := hrun
          simp only [hrun1, Option.isSome_none, Bool.false_eq_true, if_false]
          exact Chain.trans hm (ih _ hrun1)
    · exact Chain.refl s

theorem evbuffer_readln_spec : ∀ (b line left : List Nat),
    evbuffer_readln b = some (line, left) → b = line ++ 10 :: left ∧ 10 ∉ line := by
  intro b
  induction b with
  | nil => intro line left h; simp [evbuffer_readln] at h
  | cons c rest ih =>
    intro line left h
    unfold evbuffer_readln at h
    split at h
    · rename_i hc
      simp only [Option.some.injEq, Prod.mk.injEq] at h
      obtain ⟨h1, h2⟩ := h
      subst h1 h2 hc
      simp
    · rename_i hc
      split at h
      · simp at h
      · rename_i l r hr
        simp only [Option.some.injEq, Prod.mk.injEq] at h
        obtain ⟨h1, h2⟩ := h
        subst h1 h2
        obtain ⟨e1, e2⟩ := ih l r hr
        refine ⟨by simp [e1], ?_⟩
        simp only [List.mem_cons, not_or]
        exact ⟨fun h => hc h.symm, e2⟩

theorem evbuffer_readln_length (b line left : List Nat)
    (h : evbuffer_readln b = some (line, left)) : left.length < b.length := by
  obtain ⟨e, _⟩ := evbuffer_readln_spec b line left h
  subst e
  simp
  omega

theorem micro_length {a b : config} (h : Micro a b) :
    b.stdin_in.length ≤ a.stdin_in.length := by
  cases h with
  | admit_ok line left hrun hlt hrd =>
    exact Nat.le_of_lt (evbuffer_readln_length _ _ _ hrd)
  | admit_fail line left hrun hlt hrd =>
    exact Nat.le_of_lt (evbuffer_readln_length _ _ _ hrd)
  | exit0 hrun hclosed hzero => exact Nat.le_refl _

theorem chain_length {a b : config} (h : Chain a b) :
    b.stdin_in.length ≤ a.stdin_in.length := by
  induction h with
  | refl => exact Nat.le_refl _
  | tail _ hm ih => exact Nat.le_trans (micro_length hm) ih

theorem decrement_tail_congr (f g : config → config) (c1 : config) (h : f c1 = g c1) :
    decrement_tail f c1 = decrement_tail g c1 := by
  unfold decrement_tail
  rw [h]

theorem isSome_false_iff {α : Type} (o : Option α) : ¬ (o.isSome = true) ↔ o = none := by
  cases o <;> simp

/-- Fuel beyond the length of the input buffer does not change the result of
the unrolled loop: the loop never runs out of rounds. -/
theorem stdin_readcb_aux_fuel (n : Nat) : ∀ (m : Nat) (s : config), s.exit_code = none →
    s.stdin_in.length < n → s.stdin_in.length < m →
    stdin_readcb_aux n s = stdin_readcb_aux m s := by
  induction n with
  | zero => intro m s _ h; exact absurd h (Nat.not_lt_zero _)
  | succ n ih =>
    intro m s hrun hn hm
    cases m with
    | zero => exact absurd hm (Nat.not_lt_zero _)
    | succ m =>
      unfold stdin_readcb_aux
      split
      · rename_i hg
        split
        · rfl
        · rename_i line left hrd
          have hlen := evbuffer_readln_length _ _ _ hrd
          simp only []
          by_cases hfail : ∃ later, s.connect_errors = true :: later
          · obtain ⟨later, hl⟩ := hfail
            rw [grab_banner_fail _ s line left later hl, grab_banner_fail _ s line left later hl]
            have hrun1 : (admit_fail_state s line left).exit_code = none := hrun
            have hl1 : (admit_fail_state s line left).stdin_in.length < n := by
              show left.length < n
              omega
            have hl2 : (admit_fail_state s line left).stdin_in.length < m := by
              show left.length < m
              omega
            have e1 := decrement_tail_congr (stdin_readcb_aux n) (stdin_readcb_aux m) _
              (ih m _ hrun1 hl1 hl2)
            have hc := chain_decrement_tail (stdin_readcb_aux n) (fun x hx => chain_aux n x hx)
              _ hrun1
            have hlen2 := chain_length hc
            rw [← e1]
            split
            · rfl
            · rename_i hne
              exact ih m _ ((isSome_false_iff _).1 hne) (by omega) (by omega)
          · have hok : ∀ later, s.connect_errors ≠ true :: later :=
              fun later hl => hfail ⟨later, hl⟩
            rw [grab_banner_ok _ s line left hok, grab_banner_ok _ s line left hok]
            have hrun1 : (admit_ok_state s line left).exit_code = none := hrun
            simp only [hrun1, Option.isSome_none, Bool.false_eq_true, if_false]
            exact ih m _ hrun1 (by show left.length < n; omega) (by show left.length < m; omega)
      · rfl

/-- The recursive equation of the C function: `stdin_readcb` is its loop, with
`grab_banner` re-entering `stdin_readcb` itself. -/
theorem stdin_readcb_unfold (s : config) (hrun : s.exit_code = none) :
    stdin_readcb s =
      if s.current_running < s.max_concurrent ∧ s.stdin_in.length > 0 then
        match evbuffer_readln s.stdin_in with
        | none => s
        | some (line, left) =>
          let c1 := { s with
            stdin_in := left,
            current_running := s.current_running + 1,
            peak_running := max s.peak_running (s.current_running + 1) }
          let c2 := grab_banner c1 (inet_addr line)
          if c2.exit_code.isSome then c2 else stdin_readcb c2
      else s := by
  unfold stdin_readcb
  rw [stdin_readcb_aux]
  split
  · rename_i hg
    split
    · rfl
    · rename_i line left hrd
      have hlen := evbuffer_readln_length _ _ _ hrd
      simp only []
      unfold grab_banner
      by_cases hfail : ∃ later, s.connect_errors = true :: later
      · obtain ⟨later, hl⟩ := hfail
        rw [grab_banner_fail _ s line left later hl, grab_banner_fail _ s line left later hl]
        have hrun1 : (admit_fail_state s line left).exit_code = none := hrun
        have e1 : stdin_readcb_aux s.stdin_in.length (admit_fail_state s line left)
            = stdin_readcb (admit_fail_state s line left) :=
          stdin_readcb_aux_fuel _ _ _ hrun1 (by show left.length < _; omega)
            (by show left.length < left.length + 1; omega)
        have e2 := decrement_tail_congr (stdin_readcb_aux s.stdin_in.length) stdin_readcb _ e1
        have hc := chain_decrement_tail (stdin_readcb_aux s.stdin_in.length)
          (fun x hx => chain_aux _ x hx) _ hrun1
        have hlen2 := chain_length hc
        rw [← e2]
        split
        · rfl
        · rename_i hne
          exact stdin_readcb_aux_fuel _ _ _ ((isSome_false_iff _).1 hne)
            (by
              have : (admit_fail_state s line left).stdin_in.length = left.length := rfl
              omega)
            (by omega)
      · have hok : ∀ later, s.connect_errors ≠ true :: later :=
          fun later hl => hfail ⟨later, hl⟩
        rw [grab_banner_ok _ s line left hok, grab_banner_ok _ s line left hok]
        have hrun1 : (admit_ok_state s line left).exit_code = none := hrun
        simp only [hrun1, Option.isSome_none, Bool.false_eq_true, if_false]
        exact stdin_readcb_aux_fuel _ _ _ hrun1 (by show left.length < _; omega)
          (by show left.length < left.length + 1; omega)
  · rfl

theorem chain_stdin_readcb (s : config) (hrun : s.exit_code = none) :
    Chain s (stdin_readcb s) :=
  chain_aux _ s hrun

theorem chain_decrement (s : config) (hrun : s.exit_code = none) :
    Chain { s with current_running := s.current_running - 1 } (decrement_cur_running s) :=
  chain_decrement_tail stdin_readcb chain_stdin_readcb _ hrun

theorem decrement_invariant {P : config → Prop} (hP : ∀ a b, Micro a b → P a → P b)
    (s : config) (hrun : s.exit_code = none)
    (h : P { s with current_running := s.current_running - 1 }) :
    P (decrement_cur_running s) :=
  Chain.invariant hP (chain_decrement s hrun) h

/-! ## C1: the concurrency bound -/

/-- The bound on `current_running` and on every value it has taken. -/
def Bounded (s : config) : Prop :=
  s.current_running ≤ s.max_concurrent ∧ s.peak_running ≤ s.max_concurrent

theorem micro_bounded (a b : config) (h : Micro a b) (ha : Bounded a) : Bounded b := by
  obtain ⟨h1, h2⟩ := ha
  cases h with
  | admit_ok line left hrun hlt hrd =>
    refine ⟨?_, ?_⟩
    · show a.current_running + 1 ≤ a.max_concurrent
      omega
    · show max a.peak_running (a.current_running + 1) ≤ a.max_concurrent
      exact max_le h2 (by omega)
  | admit_fail line left hrun hlt hrd =>
    refine ⟨?_, ?_⟩
    · show a.current_running + 1 - 1 ≤ a.max_concurrent
      omega
    · show max a.peak_running (a.current_running + 1) ≤ a.max_concurrent
      exact max_le h2 (by omega)
  | exit0 hrun hclosed hzero => exact ⟨h1, h2⟩

/-! ## The callbacks in terms of the small steps -/

theorem decrement_eq (s : config) :
    decrement_cur_running s =
      decrement_tail stdin_readcb { s with current_running := s.current_running - 1 } := rfl

theorem connect_cb_gone (s : config) (i : Nat) (connected : Bool) (h : s.live[i]? = none) :
    connect_cb s i connected = s := by
  simp [connect_cb, h]

theorem read_cb_gone (s : config) (i : Nat) (data junk : List Nat) (buf_ok : Bool)
    (h : s.live[i]? = none) : read_cb s i data junk buf_ok = s := by
  simp [read_cb, h]

theorem connect_cb_connected (s : config) (i : Nat) (st : state) (h : s.live[i]? = some st) :
    connect_cb s i true = connected_state s i st := by
  cases hs : s.send_str <;> simp [connect_cb, h, connected_state, hs]

theorem connect_cb_timeout (s : config) (i : Nat) (st : state) (h : s.live[i]? = some st) :
    connect_cb s i false = decrement_tail stdin_readcb (timeout_state s i st) := by
  simp only [connect_cb, h, timeout_state, decrement_eq]
  by_cases hc : st.state = Phase.CONNECTED <;> simp [hc]

theorem read_cb_fatal (s : config) (i : Nat) (st : state) (data junk : List Nat)
    (h : s.live[i]? = some st) (hd : data ≠ []) :
    read_cb s i data junk false = fatal_state s i st := by
  have hl : data.length > 0 := List.length_pos.2 hd
  simp [read_cb, h, hl, fatal_state, log_fatal]

theorem read_cb_received (s : config) (i : Nat) (st : state) (data junk : List Nat)
    (h : s.live[i]? = some st) (hd : data ≠ []) :
    read_cb s i data junk true =
      decrement_tail stdin_readcb (received_state s i st data junk) := by
  have hl : data.length > 0 := List.length_pos.2 hd
  by_cases h1 : (s.search_string.isSome && strstr (data ++ junk) (s.search_string.getD [])) = true
  · simp [read_cb, h, hl, received_state, decrement_eq, matched, h1]
  · by_cases h2 : s.search_string.isNone = true
    · simp [read_cb, h, hl, received_state, decrement_eq, matched, h1, h2]
    · simp [read_cb, h, hl, received_state, decrement_eq, matched, h1, h2]

theorem read_cb_zero (s : config) (i : Nat) (st : state) (junk : List Nat) (buf_ok : Bool)
    (h : s.live[i]? = some st) :
    read_cb s i [] junk buf_ok = decrement_tail stdin_readcb (zero_state s i) := by
  simp [read_cb, h, zero_state, decrement_eq]

theorem decrement_tail_checked (f : config → config) (c1 : config) :
    Checked (decrement_tail f c1) := by
  unfold decrement_tail
  generalize (if c1.stdin_in.length > 0 then f c1 else c1) = c2
  simp only []
  intro hrun
  split at hrun
  · rename_i h
    rw [hrun] at h
    simp at h
  · split at hrun
    · simp at hrun
    · rename_i h1 h2
      split
      · rename_i h3
        rw [hrun] at h3
        simp at h3
      · simpa using h2

/-- Every event is a first part followed by a chain of small steps; an event
that reaps a task ends with the shutdown test made. -/
theorem step_onset_chain (s : config) (e : Event) (hrun : s.exit_code = none) :
    ∃ mid reaps, Onset s e mid reaps ∧ Chain mid (step s e) ∧
      (reaps = true → Checked (step s e)) := by
  have hstep : step s e = match e with
      | Event.stdin_data bytes => stdin_readcb { s with stdin_in := s.stdin_in ++ bytes }
      | Event.stdin_event eof => stdin_eventcb s eof
      | Event.connect_event i connected => connect_cb s i connected
      | Event.read_event i data junk buf_ok => read_cb s i data junk buf_ok := by
    simp [step, hrun]
  rw [hstep]
  cases e with
  | stdin_data bytes =>
    exact ⟨_, false, Onset.data s bytes, chain_stdin_readcb _ hrun, by simp⟩
  | stdin_event eof =>
    cases eof with
    | false => exact ⟨_, false, Onset.no_eof s, Chain.refl _, by simp⟩
    | true =>
      refine ⟨_, false, Onset.eof s, ?_, by simp⟩
      simp only [stdin_eventcb, if_true]
      split
      · rename_i hz
        exact Chain.single (Micro.exit0 _ hrun rfl (by simpa using hz))
      · exact Chain.refl _
  | connect_event i connected =>
    cases hl : s.live[i]? with
    | none =>
      refine ⟨_, false, Onset.connect_gone s i connected hl, ?_, by simp⟩
      simp only [connect_cb_gone s i connected hl]
      exact Chain.refl _
    | some st =>
      cases connected with
      | true =>
        refine ⟨_, false, Onset.connected s i st hl, ?_, by simp⟩
        simp only [connect_cb_connected s i st hl]
        exact Chain.refl _
      | false =>
        refine ⟨_, true, Onset.timeout s i st hl, ?_, ?_⟩
        · simp only [connect_cb_timeout s i st hl]
          exact chain_decrement_tail stdin_readcb chain_stdin_readcb _ hrun
        · intro _
          simp only [connect_cb_timeout s i st hl]
          exact decrement_tail_checked _ _
  | read_event i data junk buf_ok =>
    cases hl : s.live[i]? with
    | none =>
      refine ⟨_, false, Onset.read_gone s i data junk buf_ok hl, ?_, by simp⟩
      simp only [read_cb_gone s i data junk buf_ok hl]
      exact Chain.refl _
    | some st =>
      cases data with
      | nil =>
        refine ⟨_, true, Onset.zero s i st junk buf_ok hl, ?_, ?_⟩
        · simp only [read_cb_zero s i st junk buf_ok hl]
          exact chain_decrement_tail stdin_readcb chain_stdin_readcb _ hrun
        · intro _
          simp only [read_cb_zero s i st junk buf_ok hl]
          exact decrement_tail_checked _ _
      | cons d ds =>
        cases buf_ok with
        | false =>
          refine ⟨_, false, Onset.fatal s i st (d :: ds) junk hl (by simp), ?_, by simp⟩
          simp only [read_cb_fatal s i st (d :: ds) junk hl (by simp)]
          exact Chain.refl _
        | true =>
          refine ⟨_, true, Onset.received s i st (d :: ds) junk hl (by simp), ?_, ?_⟩
          · simp only [read_cb_received s i st (d :: ds) junk hl (by simp)]
            exact chain_decrement_tail stdin_readcb chain_stdin_readcb _ hrun
          · intro _
            simp only [read_cb_received s i st (d :: ds) junk hl (by simp)]
            exact decrement_tail_checked _ _

theorem step_exited (s : config) (e : Event) (h : s.exit_code ≠ none) : step s e = s := by
  unfold step
  cases he : s.exit_code with
  | none => exact absurd he h
  | some c => simp

theorem step_invariant {P : config → Prop} (hmicro : ∀ a b, Micro a b → P a → P b)
    (honset : ∀ s e mid r, s.exit_code = none → Onset s e mid r → P s → P mid)
    (s : config) (e : Event) (hs : P s) : P (step s e) := by
  by_cases hrun : s.exit_code = none
  · obtain ⟨mid, r, hm, hc, _⟩ := step_onset_chain s e hrun
    exact Chain.invariant hmicro hc (honset s e mid r hrun hm hs)
  · rw [step_exited s e hrun]
    exact hs

theorem run_invariant {P : config → Prop} (hP : ∀ s e, P s → P (step s e)) :
    ∀ (evs : List Event) (s : config), P s → P (run s evs) := by
  intro evs
  induction evs with
  | nil => intro s hs; exact hs
  | cons e es ih => intro s hs; exact ih (step s e) (hP s e hs)

theorem onset_bounded {m : Int} (s : config) (e : Event) (mid : config) (r : Bool)
    (_ : s.exit_code = none) (h : Onset s e mid r)
    (hs : Bounded s ∧ s.max_concurrent = m) : Bounded mid ∧ mid.max_concurrent = m := by
  obtain ⟨⟨h1, h2⟩, h3⟩ := hs
  cases h <;>
    simp only [Bounded, connected_state, timeout_state, fatal_state, received_state, zero_state] <;>
    refine ⟨⟨?_, ?_⟩, ?_⟩ <;> omega

theorem micro_bounded_max {m : Int} (a b : config) (h : Micro a b)
    (ha : Bounded a ∧ a.max_concurrent = m) : Bounded b ∧ b.max_concurrent = m := by
  refine ⟨micro_bounded a b h ha.1, ?_⟩
  cases h <;> exact ha.2

/-- C1. Concurrency bound: started with `current_running = 0` and
`max_concurrent ≥ 0`, after every sequence of events `current_running` is at
most `max_concurrent`, and so is every value it took on the way, the values
inside the chain `stdin_readcb`, `grab_banner`, `decrement_cur_running`,
`stdin_readcb` included (`peak_running`). -/
theorem concurrency_bound (port : Nat) (ct rt maxc mrs fmt : Int)
    (search send : Option (List Nat)) (errs : List Bool) (evs : List Event)
    (hmax : 0 ≤ maxc) :
    (run (init port ct rt maxc mrs fmt search send errs) evs).current_running ≤ maxc ∧
    (run (init port ct rt maxc mrs fmt search send errs) evs).peak_running ≤ maxc ∧
    (run (init port ct rt maxc mrs fmt search send errs) evs).max_concurrent = maxc := by
  have h := run_invariant (P := fun s => Bounded s ∧ s.max_concurrent = maxc)
    (step_invariant micro_bounded_max onset_bounded) evs
    (init port ct rt maxc mrs fmt search send errs) ⟨⟨hmax, hmax⟩, rfl⟩
  obtain ⟨⟨h1, h2⟩, h3⟩ := h
  rw [h3] at h1 h2
  exact ⟨h1, h2, h3⟩

/-! ## Lists of tasks -/

theorem connecting_append (l : List state) (t : state) :
    connecting (l ++ [t]) = connecting l + (if t.state = Phase.CONNECTING then 1 else 0) := by
  induction l with
  | nil => simp [connecting]
  | cons a l ih =>
    have e : connecting (a :: l ++ [t]) =
        (if a.state = Phase.CONNECTING then 1 else 0) + connecting (l ++ [t]) := rfl
    have e2 : connecting (a :: l) = (if a.state = Phase.CONNECTING then 1 else 0) + connecting l := rfl
    rw [e, e2, ih]
    omega

theorem connecting_set : ∀ (l : List state) (i : Nat) (st t : state), l[i]? = some st →
    connecting (l.set i t) =
      connecting l - (if st.state = Phase.CONNECTING then 1 else 0)
        + (if t.state = Phase.CONNECTING then 1 else 0) := by
  intro l
  induction l with
  | nil => intro i st t h; simp at h
  | cons a l ih =>
    intro i st t h
    cases i with
    | zero =>
      simp only [List.getElem?_cons_zero, Option.some.injEq] at h
      subst h
      simp only [List.set_cons_zero, connecting]
      omega
    | succ i =>
      simp only [List.getElem?_cons_succ] at h
      simp only [List.set_cons_succ, connecting, ih i st t h]
      omega

theorem connecting_eraseIdx : ∀ (l : List state) (i : Nat) (st : state), l[i]? = some st →
    connecting (l.eraseIdx i) = connecting l - (if st.state = Phase.CONNECTING then 1 else 0) ∧
    ((l.eraseIdx i).length : Int) = (l.length : Int) - 1 := by
  intro l
  induction l with
  | nil => intro i st h; simp at h
  | cons a l ih =>
    intro i st h
    cases i with
    | zero =>
      simp only [List.getElem?_cons_zero, Option.some.injEq] at h
      subst h
      simp only [List.eraseIdx_cons_zero, connecting, List.length_cons]
      constructor <;> omega
    | succ i =>
      simp only [List.getElem?_cons_succ] at h
      obtain ⟨h1, h2⟩ := ih i st h
      simp only [List.eraseIdx_cons_succ, connecting, List.length_cons, h1]
      constructor
      · omega
      · push_cast
        omega

theorem eraseIdx_set_same : ∀ (l : List state) (i : Nat) (t : state),
    (l.set i t).eraseIdx i = l.eraseIdx i := by
  intro l
  induction l with
  | nil => intro i t; simp
  | cons a l ih =>
    intro i t
    cases i with
    | zero => simp
    | succ i => simp [ih i t]

theorem mem_of_mem_eraseIdx_state : ∀ (l : List state) (i : Nat) (t : state),
    t ∈ l.eraseIdx i → t ∈ l := by
  intro l
  induction l with
  | nil => intro i t h; simp at h
  | cons a l ih =>
    intro i t h
    cases i with
    | zero =>
      simp only [List.eraseIdx_cons_zero] at h
      exact List.mem_cons_of_mem _ h
    | succ i =>
      simp only [List.eraseIdx_cons_succ, List.mem_cons] at h
      rcases h with h | h
      · simp [h]
      · exact List.mem_cons_of_mem _ (ih i t h)

theorem mem_of_mem_set_state : ∀ (l : List state) (i : Nat) (a t : state),
    t ∈ l.set i a → t = a ∨ t ∈ l := by
  intro l
  induction l with
  | nil => intro i a t h; simp at h
  | cons b l ih =>
    intro i a t h
    cases i with
    | zero =>
      simp only [List.set_cons_zero, List.mem_cons] at h
      rcases h with h | h
      · exact Or.inl h
      · exact Or.inr (List.mem_cons_of_mem _ h)
    | succ i =>
      simp only [List.set_cons_succ, List.mem_cons] at h
      rcases h with h | h
      · exact Or.inr (by simp [h])
      · rcases ih i a t h with h | h
        · exact Or.inl h
        · exact Or.inr (List.mem_cons_of_mem _ h)

theorem mem_of_getElem?_state (l : List state) (i : Nat) (st : state) (h : l[i]? = some st) :
    st ∈ l := by
  rw [List.getElem?_eq_some] at h
  obtain ⟨hi, rfl⟩ := h
  exact List.getElem_mem _

/-! ## C5 and C2: accounting of the admitted tasks -/

theorem micro_accounted (a b : config) (h : Micro a b) (ha : Accounted a) : Accounted b := by
  obtain ⟨h1, h2, h3⟩ := ha
  cases h with
  | admit_ok line left hrun hlt hrd =>
    refine ⟨?_, ?_, ?_⟩
    · simp only [admit_ok_state, List.length_append, List.length_singleton]
      push_cast
      omega
    · simp only [admit_ok_state, connecting_append, if_true]
      omega
    · intro _ t ht
      simp only [admit_ok_state, List.mem_append, List.mem_singleton] at ht
      rcases ht with ht | ht
      · exact h3 hrun t ht
      · subst ht
        simp
  | admit_fail line left hrun hlt hrd =>
    refine ⟨?_, ?_, ?_⟩
    · simp only [admit_fail_state]
      omega
    · simp only [admit_fail_state]
      omega
    · intro _ t ht
      exact h3 hrun t ht
  | exit0 hrun hclosed hzero =>
    exact ⟨h1, h2, fun h => by simp at h⟩

theorem onset_accounted (s : config) (e : Event) (mid : config) (r : Bool)
    (hrun : s.exit_code = none) (h : Onset s e mid r) (ho : event_in_order s e = true)
    (hs : Accounted s) : Accounted mid := by
  obtain ⟨h1, h2, h3⟩ := hs
  cases h with
  | data bytes => exact ⟨h1, h2, h3⟩
  | eof => exact ⟨h1, h2, h3⟩
  | no_eof => exact ⟨h1, h2, h3⟩
  | connect_gone i connected h => exact ⟨h1, h2, h3⟩
  | read_gone i data junk buf_ok h => exact ⟨h1, h2, h3⟩
  | connected i st h =>
    have hst : st.state = Phase.CONNECTING := by
      simpa [event_in_order, h] using ho
    refine ⟨?_, ?_, ?_⟩
    · simp only [connected_state, List.length_set]
      exact h1
    · simp only [connected_state, connecting_set _ _ _ _ h, hst, if_true]
      simp
      omega
    · intro _ t ht
      simp only [connected_state] at ht
      rcases mem_of_mem_set_state _ _ _ _ ht with ht | ht
      · subst ht
        simp
      · exact h3 hrun t ht
  | timeout i st h =>
    obtain ⟨e1, e2⟩ := connecting_eraseIdx _ _ _ h
    have hne := h3 hrun st (mem_of_getElem?_state _ _ _ h)
    refine ⟨?_, ?_, ?_⟩
    · simp only [timeout_state, e2]
      omega
    · simp only [timeout_state, e1]
      cases hp : st.state with
      | CONNECTING => simp; omega
      | CONNECTED => simp; omega
      | RECEIVED => exact absurd hp hne
    · intro _ t ht
      exact h3 hrun t (mem_of_mem_eraseIdx_state _ _ _ ht)
  | fatal i st data junk h hd =>
    have hst : st.state = Phase.CONNECTED := by
      simpa [event_in_order, h] using ho
    refine ⟨?_, ?_, ?_⟩
    · simp only [fatal_state, List.length_set]
      exact h1
    · simp only [fatal_state, connecting_set _ _ _ _ h, hst]
      simp
      omega
    · intro hx
      simp [fatal_state] at hx
  | received i st data junk h hd =>
    have hst : st.state = Phase.CONNECTED := by
      simpa [event_in_order, h] using ho
    obtain ⟨e1, e2⟩ := connecting_eraseIdx _ _ _ h
    refine ⟨?_, ?_, ?_⟩
    · simp only [received_state, eraseIdx_set_same, e2]
      omega
    · simp only [received_state, eraseIdx_set_same, e1, hst]
      simp
      omega
    · intro _ t ht
      simp only [received_state, eraseIdx_set_same] at ht
      exact h3 hrun t (mem_of_mem_eraseIdx_state _ _ _ ht)
  | zero i st junk buf_ok h =>
    have hst : st.state = Phase.CONNECTED := by
      simpa [event_in_order, h] using ho
    obtain ⟨e1, e2⟩ := connecting_eraseIdx _ _ _ h
    refine ⟨?_, ?_, ?_⟩
    · simp only [zero_state, e2]
      omega
    · simp only [zero_state, e1, hst]
      simp
      omega
    · intro _ t ht
      exact h3 hrun t (mem_of_mem_eraseIdx_state _ _ _ ht)

theorem step_accounted (s : config) (e : Event) (ho : event_in_order s e = true)
    (hs : Accounted s) : Accounted (step s e) := by
  by_cases hrun : s.exit_code = none
  · obtain ⟨mid, r, hm, hc, _⟩ := step_onset_chain s e hrun
    exact Chain.invariant micro_accounted hc (onset_accounted s e mid r hrun hm ho hs)
  · rw [step_exited s e hrun]
    exact hs

theorem run_accounted : ∀ (evs : List Event) (s : config), in_order s evs = true →
    Accounted s → Accounted (run s evs) := by
  intro evs
  induction evs with
  | nil => intro s _ hs; exact hs
  | cons e es ih =>
    intro s ho hs
    simp only [in_order, Bool.and_eq_true] at ho
    exact ih (step s e) ho.2 (step_accounted s e ho.1 hs)

theorem init_accounted (port : Nat) (ct rt maxc mrs fmt : Int)
    (search send : Option (List Nat)) (errs : List Bool) :
    Accounted (init port ct rt maxc mrs fmt search send errs) := by
  refine ⟨rfl, rfl, ?_⟩
  intro _ t ht
  simp [init] at ht

theorem connecting_of_length_zero (l : List state) (h : (l.length : Int) = 0) :
    connecting l = 0 := by
  cases l with
  | nil => rfl
  | cons a l => simp at h; omega

/-- C5. Conservation: started from the initial state, after every sequence of
events that respects the per-connection order (connected event on a connecting
task, bytes readable on a connected task), in a drained state
(`current_running = 0`) the admitted targets are exactly the connected ones,
the ones timed out while connecting and the admission failures. -/
theorem conservation (port : Nat) (ct rt maxc mrs fmt : Int)
    (search send : Option (List Nat)) (errs : List Bool) (evs : List Event)
    (hord : in_order (init port ct rt maxc mrs fmt search send errs) evs = true)
    (hdrained : (run (init port ct rt maxc mrs fmt search send errs) evs).current_running = 0) :
    (run (init port ct rt maxc mrs fmt search send errs) evs).stats.init_connected_hosts =
      (run (init port ct rt maxc mrs fmt search send errs) evs).stats.connected_hosts +
      (run (init port ct rt maxc mrs fmt search send errs) evs).stats.conn_timed_out +
      (run (init port ct rt maxc mrs fmt search send errs) evs).admission_failures := by
  obtain ⟨h1, h2, _⟩ := run_accounted evs _ hord (init_accounted port ct rt maxc mrs fmt search send errs)
  rw [hdrained] at h1
  rw [connecting_of_length_zero _ h1.symm] at h2
  omega

/-! ## C6: the timeout partition -/

theorem micro_partitioned (a b : config) (h : Micro a b) (ha : Partitioned a) :
    Partitioned b := by
  cases h <;> exact ha

theorem onset_partitioned (s : config) (e : Event) (mid : config) (r : Bool)
    (_ : s.exit_code = none) (h : Onset s e mid r) (hs : Partitioned s) : Partitioned mid := by
  unfold Partitioned at hs ⊢
  cases h with
  | timeout i st h =>
    simp only [timeout_state]
    by_cases hc : st.state = Phase.CONNECTED <;> simp only [hc, if_true, if_false] <;> omega
  | data bytes => exact hs
  | eof => exact hs
  | no_eof => exact hs
  | connect_gone i connected h => exact hs
  | read_gone i data junk buf_ok h => exact hs
  | connected i st h => exact hs
  | fatal i st data junk h hd => exact hs
  | received i st data junk h hd => exact hs
  | zero i st junk buf_ok h => exact hs

/-- C6. Timeout partition: started from all-zero counters, after every
sequence of events `timed_out` is the sum of `conn_timed_out` and
`read_timed_out`. -/
theorem timeout_partition (port : Nat) (ct rt maxc mrs fmt : Int)
    (search send : Option (List Nat)) (errs : List Bool) (evs : List Event) :
    (run (init port ct rt maxc mrs fmt search send errs) evs).stats.timed_out =
      (run (init port ct rt maxc mrs fmt search send errs) evs).stats.conn_timed_out +
      (run (init port ct rt maxc mrs fmt search send errs) evs).stats.read_timed_out :=
  run_invariant (P := Partitioned) (step_invariant micro_partitioned onset_partitioned) evs
    (init port ct rt maxc mrs fmt search send errs) rfl

/-! ## C2: the shutdown condition -/

theorem micro_settled (a b : config) (h : Micro a b) (ha : Settled a) : Settled b := by
  obtain ⟨h1, h2, h3⟩ := ha
  cases h with
  | admit_ok line left hrun hlt hrd =>
    refine ⟨?_, ?_, ?_⟩
    · simp only [admit_ok_state, List.length_append, List.length_singleton]
      push_cast
      omega
    · intro hx
      simp [admit_ok_state, hrun] at hx
    · intro c hx
      simp [admit_ok_state, hrun] at hx
  | admit_fail line left hrun hlt hrd =>
    refine ⟨?_, ?_, ?_⟩
    · simp only [admit_fail_state]
      omega
    · intro hx
      simp [admit_fail_state, hrun] at hx
    · intro c hx
      simp [admit_fail_state, hrun] at hx
  | exit0 hrun hclosed hzero =>
    refine ⟨h1, fun _ => ⟨hclosed, hzero⟩, ?_⟩
    intro c hx hc
    simp only [Option.some.injEq] at hx
    exact absurd hx.symm hc

theorem micro_checked (a b : config) (h : Micro a b) (ha : Settled a ∧ Checked a) :
    Settled b ∧ Checked b := by
  refine ⟨micro_settled a b h ha.1, ?_⟩
  obtain ⟨⟨h1, _, _⟩, hc⟩ := ha
  cases h with
  | admit_ok line left hrun hlt hrd =>
    intro _ hx
    simp only [admit_ok_state] at hx
    have : (0 : Int) ≤ a.live.length := Int.natCast_nonneg _
    omega
  | admit_fail line left hrun hlt hrd =>
    intro _ hx
    simp only [admit_fail_state] at hx
    exact hc hrun ⟨hx.1, by omega⟩
  | exit0 hrun hclosed hzero =>
    intro hx
    simp at hx

theorem micro_clean (a b : config) (h : Micro a b) (_ : CleanExit a) : CleanExit b := by
  cases h with
  | admit_ok line left hrun hlt hrd =>
    intro c hx
    simp [admit_ok_state, hrun] at hx
  | admit_fail line left hrun hlt hrd =>
    intro c hx
    simp [admit_fail_state, hrun] at hx
  | exit0 hrun hclosed hzero =>
    intro c hx
    simp only [Option.some.injEq] at hx
    exact ⟨hx.symm, hclosed, hzero⟩

theorem length_pos_of_getElem? (l : List state) (i : Nat) (st : state) (h : l[i]? = some st) :
    (1 : Int) ≤ l.length := by
  cases l with
  | nil => simp at h
  | cons a l => simp only [List.length_cons]; push_cast; omega

theorem onset_settled (s : config) (e : Event) (mid : config) (r : Bool)
    (hrun : s.exit_code = none) (h : Onset s e mid r) (hs : Settled s) : Settled mid := by
  obtain ⟨h1, h2, h3⟩ := hs
  cases h with
  | data bytes => exact ⟨h1, h2, h3⟩
  | eof =>
    exact ⟨h1, fun hx => by simp [hrun] at hx, fun c hx => by simp [hrun] at hx⟩
  | no_eof => exact ⟨h1, h2, h3⟩
  | connect_gone i connected h => exact ⟨h1, h2, h3⟩
  | read_gone i data junk buf_ok h => exact ⟨h1, h2, h3⟩
  | connected i st h =>
    refine ⟨?_, fun hx => by simp [connected_state, hrun] at hx,
      fun c hx => by simp [connected_state, hrun] at hx⟩
    simp only [connected_state, List.length_set]
    exact h1
  | timeout i st h =>
    obtain ⟨_, e2⟩ := connecting_eraseIdx _ _ _ h
    refine ⟨?_, fun hx => by simp [timeout_state, hrun] at hx,
      fun c hx => by simp [timeout_state, hrun] at hx⟩
    simp only [timeout_state, e2]
    omega
  | fatal i st data junk h hd =>
    have hp := length_pos_of_getElem? _ _ _ h
    refine ⟨?_, fun hx => by simp [fatal_state] at hx, ?_⟩
    · simp only [fatal_state, List.length_set]
      exact h1
    · intro c _ _
      simp only [fatal_state]
      omega
  | received i st data junk h hd =>
    obtain ⟨_, e2⟩ := connecting_eraseIdx _ _ _ h
    refine ⟨?_, fun hx => by simp [received_state, hrun] at hx,
      fun c hx => by simp [received_state, hrun] at hx⟩
    simp only [received_state, eraseIdx_set_same, e2]
    omega
  | zero i st junk buf_ok h =>
    obtain ⟨_, e2⟩ := connecting_eraseIdx _ _ _ h
    refine ⟨?_, fun hx => by simp [zero_state, hrun] at hx,
      fun c hx => by simp [zero_state, hrun] at hx⟩
    simp only [zero_state, e2]
    omega

theorem onset_checked (s : config) (e : Event) (mid : config)
    (h : Onset s e mid false) (he : e ≠ Event.stdin_event true) (hs : Checked s) :
    Checked mid := by
  cases h with
  | data bytes => exact hs
  | eof => exact absurd rfl he
  | no_eof => exact hs
  | connect_gone i connected h => exact hs
  | read_gone i data junk buf_ok h => exact hs
  | connected i st h => exact hs
  | fatal i st data junk h hd =>
    intro hx
    simp [fatal_state] at hx

theorem step_eof (s : config) (hrun : s.exit_code = none) :
    step s (Event.stdin_event true) =
      if s.current_running = 0 then { s with stdin_closed := true, exit_code := some 0 }
      else { s with stdin_closed := true } := by
  simp [step, hrun, stdin_eventcb]

theorem step_checked (s : config) (e : Event) (hs : Settled s ∧ Checked s) :
    Settled (step s e) ∧ Checked (step s e) := by
  by_cases hrun : s.exit_code = none
  · obtain ⟨mid, r, hm, hc, hchk⟩ := step_onset_chain s e hrun
    have hmid := onset_settled s e mid r hrun hm hs.1
    refine ⟨Chain.invariant micro_settled hc hmid, ?_⟩
    cases r with
    | true => exact hchk rfl
    | false =>
      by_cases he : e = Event.stdin_event true
      · subst he
        rw [step_eof s hrun]
        split
        · intro hx
          simp at hx
        · rename_i hz
          intro _ hx
          exact hz hx.2
      · exact (Chain.invariant micro_checked hc ⟨hmid, onset_checked s e mid hm he hs.2⟩).2
  · rw [step_exited s e hrun]
    exact hs

theorem decrement_clean (c : config) (hrun : c.exit_code = none) :
    CleanExit (decrement_cur_running c) := by
  apply decrement_invariant micro_clean c hrun
  intro k hx
  simp [hrun] at hx

/-- C2. Shutdown condition.  After every sequence of events the process has
exited with code 0 exactly when standard input is closed and
`current_running` is 0, and then no task is live.  The exit is taken at the end
of `decrement_cur_running`, exactly when standard input is closed and
`current_running` is 0 there, and in `stdin_eventcb`, exactly on end of file
with `current_running` 0. -/
theorem shutdown_condition (port : Nat) (ct rt maxc mrs fmt : Int)
    (search send : Option (List Nat)) (errs : List Bool) (evs : List Event) :
    ((run (init port ct rt maxc mrs fmt search send errs) evs).exit_code = some 0 ↔
      ((run (init port ct rt maxc mrs fmt search send errs) evs).stdin_closed = true ∧
       (run (init port ct rt maxc mrs fmt search send errs) evs).current_running = 0)) ∧
    ((run (init port ct rt maxc mrs fmt search send errs) evs).exit_code = some 0 →
      (run (init port ct rt maxc mrs fmt search send errs) evs).live = []) ∧
    (∀ c : config, c.exit_code = none →
      ((decrement_cur_running c).exit_code = some 0 ↔
        ((decrement_cur_running c).stdin_closed = true ∧
         (decrement_cur_running c).current_running = 0))) ∧
    (∀ (c : config) (eof : Bool), c.exit_code = none →
      ((stdin_eventcb c eof).exit_code = some 0 ↔ (eof = true ∧ c.current_running = 0))) := by
  have h := run_invariant (P := fun s => Settled s ∧ Checked s) step_checked evs
    (init port ct rt maxc mrs fmt search send errs)
    ⟨⟨rfl, fun hx => by simp [init] at hx, fun c hx => by simp [init] at hx⟩,
      fun _ hx => by simp [init] at hx⟩
  generalize run (init port ct rt maxc mrs fmt search send errs) evs = r at h
  obtain ⟨⟨h1, h2, h3⟩, h4⟩ := h
  refine ⟨⟨h2, ?_⟩, ?_, ?_, ?_⟩
  · intro hx
    cases he : r.exit_code with
    | none => exact absurd hx (h4 he)
    | some k =>
      by_cases hk : k = 0
      · rw [hk]
      · have := h3 k he hk
        omega
  · intro hx
    have hz := (h2 hx).2
    rw [h1] at hz
    exact List.length_eq_zero.1 (by exact_mod_cast hz)
  · intro c hrun
    have hclean := decrement_clean c hrun
    have hchk : Checked (decrement_cur_running c) := decrement_tail_checked _ _
    constructor
    · intro hx
      exact (hclean 0 hx).2
    · intro hx
      cases he : (decrement_cur_running c).exit_code with
      | none => exact absurd hx (hchk he)
      | some k => rw [(hclean k he).1]
  · intro c eof hrun
    cases eof with
    | false => simp [stdin_eventcb, hrun]
    | true =>
      by_cases hz : c.current_running = 0 <;> simp [stdin_eventcb, hrun, hz]

/-! ## C7: admission order -/

theorem unlines_append (a b : List (List Nat)) : unlines (a ++ b) = unlines a ++ unlines b := by
  induction a with
  | nil => rfl
  | cons l ls ih => simp [unlines, ih]

theorem micro_consumed (s0 a b : config) (h : Micro a b) (ha : Consumed s0 a) :
    Consumed s0 b := by
  obtain ⟨ls, h1, h2, h3⟩ := ha
  cases h with
  | admit_ok line left hrun hlt hrd =>
    obtain ⟨e1, e2⟩ := evbuffer_readln_spec _ _ _ hrd
    refine ⟨ls ++ [line], ?_, ?_, ?_⟩
    · simp only [admit_ok_state, unlines_append, unlines, h1, e1]
      simp
    · intro l hl
      simp only [List.mem_append, List.mem_singleton] at hl
      rcases hl with hl | hl
      · exact h2 l hl
      · rw [hl]; exact e2
    · simp only [admit_ok_state, h3]
      simp
  | admit_fail line left hrun hlt hrd =>
    obtain ⟨e1, e2⟩ := evbuffer_readln_spec _ _ _ hrd
    refine ⟨ls ++ [line], ?_, ?_, ?_⟩
    · simp only [admit_fail_state, unlines_append, unlines, h1, e1]
      simp
    · intro l hl
      simp only [List.mem_append, List.mem_singleton] at hl
      rcases hl with hl | hl
      · exact h2 l hl
      · rw [hl]; exact e2
    · simp only [admit_fail_state, h3]
      simp
  | exit0 hrun hclosed hzero => exact ⟨ls, h1, h2, h3⟩

theorem first_newline_unique : ∀ (a b u v : List Nat), 10 ∉ a → 10 ∉ b →
    a ++ 10 :: u = b ++ 10 :: v → a = b ∧ u = v := by
  intro a
  induction a with
  | nil =>
    intro b u v _ hb h
    cases b with
    | nil => simpa using h
    | cons c b =>
      simp only [List.nil_append, List.cons_append, List.cons.injEq] at h
      exact absurd (by simp [← h.1]) hb
  | cons c a ih =>
    intro b u v ha hb h
    cases b with
    | nil =>
      simp only [List.nil_append, List.cons_append, List.cons.injEq] at h
      exact absurd (by simp [h.1]) ha
    | cons d b =>
      simp only [List.cons_append, List.cons.injEq] at h
      simp only [List.mem_cons, not_or] at ha hb
      obtain ⟨e1, e2⟩ := ih b u v ha.2 hb.2 h.2
      exact ⟨by rw [h.1, e1], e2⟩

theorem lines_take : ∀ (ls lines : List (List Nat)) (tail left : List Nat),
    (∀ l ∈ ls, 10 ∉ l) → (∀ l ∈ lines, 10 ∉ l) → 10 ∉ tail →
    unlines lines ++ tail = unlines ls ++ left →
    ls.length ≤ lines.length ∧ ls = lines.take ls.length ∧
      left = unlines (lines.drop ls.length) ++ tail := by
  intro ls
  induction ls with
  | nil =>
    intro lines tail left _ _ _ h
    simp only [unlines, List.nil_append] at h
    simp [h]
  | cons b ls ih =>
    intro lines tail left hls hlines htail h
    cases lines with
    | nil =>
      simp only [unlines, List.nil_append, List.append_assoc, List.cons_append] at h
      exact absurd (by rw [h]; simp) htail
    | cons a lines =>
      simp only [unlines, List.append_assoc, List.cons_append] at h
      obtain ⟨e1, e2⟩ := first_newline_unique a b _ _
        (hlines a (List.mem_cons_self _ _)) (hls b (List.mem_cons_self _ _)) h
      obtain ⟨k1, k2, k3⟩ := ih lines tail left
        (fun l hl => hls l (List.mem_cons_of_mem _ hl))
        (fun l hl => hlines l (List.mem_cons_of_mem _ hl)) htail e2
      refine ⟨by simp only [List.length_cons]; omega, ?_, ?_⟩
      · simp only [List.length_cons, List.take_succ_cons, e1]
        rw [← k2]
      · simp only [List.length_cons, List.drop_succ_cons]
        exact k3

theorem evbuffer_readln_unlines (l : List Nat) (ls : List (List Nat)) (tail : List Nat)
    (hl : 10 ∉ l) : evbuffer_readln (unlines (l :: ls) ++ tail) = some (l, unlines ls ++ tail) := by
  induction l with
  | nil => simp [unlines, evbuffer_readln]
  | cons c l ih =>
    simp only [List.mem_cons, not_or] at hl
    have hc : ¬ c = 10 := fun h => hl.1 h.symm
    have ih2 := ih hl.2
    simp only [unlines, List.cons_append, List.append_assoc] at ih2 ⊢
    simp only [evbuffer_readln, hc, if_false, ih2]

/-- The loop of `stdin_readcb` stops only when the process has exited, the cap
is reached or no complete line is buffered. -/
theorem stdin_readcb_aux_stops (n : Nat) : ∀ s : config, s.exit_code = none →
    s.stdin_in.length < n → (stdin_readcb_aux n s).exit_code = none →
    (stdin_readcb_aux n s).current_running < (stdin_readcb_aux n s).max_concurrent →
    evbuffer_readln (stdin_readcb_aux n s).stdin_in = none := by
  induction n with
  | zero => intro s _ h; exact absurd h (Nat.not_lt_zero _)
  | succ n ih =>
    intro s hrun hn
    unfold stdin_readcb_aux
    split
    · rename_i hg
      split
      · rename_i hnone
        intro _ _
        exact hnone
      · rename_i line left hrd
        have hlen := evbuffer_readln_length _ _ _ hrd
        simp only []
        by_cases hfail : ∃ later, s.connect_errors = true :: later
        · obtain ⟨later, hl⟩ := hfail
          rw [grab_banner_fail _ s line left later hl]
          have hrun1 : (admit_fail_state s line left).exit_code = none := hrun
          have hc := chain_decrement_tail (stdin_readcb_aux n) (fun x hx => chain_aux n x hx)
            _ hrun1
          have hlen2 := chain_length hc
          have hl1 : (admit_fail_state s line left).stdin_in.length = left.length := rfl
          split
          · rename_i hex
            intro hx
            rw [hx] at hex
            simp at hex
          · rename_i hne
            exact ih _ ((isSome_false_iff _).1 hne) (by omega)
        · have hok : ∀ later, s.connect_errors ≠ true :: later :=
            fun later hl => hfail ⟨later, hl⟩
          rw [grab_banner_ok _ s line left hok]
          have hrun1 : (admit_ok_state s line left).exit_code = none := hrun
          simp only [hrun1, Option.isSome_none, Bool.false_eq_true, if_false]
          exact ih _ hrun1 (by show left.length < n; omega)
    · rename_i hg
      intro _ hlt
      have hz : s.stdin_in = [] := by
        by_contra hne
        exact hg ⟨hlt, List.length_pos.2 hne⟩
      rw [hz]
      rfl

/-- C7. Admission ordering: for an input buffer made of the lines `lines`
(newline-terminated, followed by an unfinished line `tail`) and every pattern
of connect results, the targets passed to `grab_banner` during a call of
`stdin_readcb`, nested re-entrant calls included, are the first `k` lines in
input order, each taken once; those lines are drained from the buffer, and the
call stops before the last line only when the cap is reached or the process
has exited. -/
theorem admission_order (s : config) (lines : List (List Nat)) (tail : List Nat)
    (hrun : s.exit_code = none) (hlines : ∀ l ∈ lines, 10 ∉ l) (htail : 10 ∉ tail)
    (hbuf : s.stdin_in = unlines lines ++ tail) :
    ∃ k, k ≤ lines.length ∧
      (stdin_readcb s).admitted = s.admitted ++ (lines.take k).map inet_addr ∧
      (stdin_readcb s).stdin_in = unlines (lines.drop k) ++ tail ∧
      ((stdin_readcb s).exit_code = none →
        (stdin_readcb s).current_running < (stdin_readcb s).max_concurrent →
        k = lines.length) := by
  have hc : Consumed s (stdin_readcb s) :=
    Chain.invariant (micro_consumed s) (chain_stdin_readcb s hrun) ⟨[], by simp [unlines], by simp, by simp⟩
  obtain ⟨ls, h1, h2, h3⟩ := hc
  rw [hbuf] at h1
  obtain ⟨k1, k2, k3⟩ := lines_take ls lines tail _ h2 hlines htail h1
  refine ⟨ls.length, k1, ?_, k3, ?_⟩
  · rw [h3, ← k2]
  · intro hx hlt
    have hstop := stdin_readcb_aux_stops _ s hrun (Nat.lt_succ_self _) hx hlt
    have hstop2 : evbuffer_readln (stdin_readcb s).stdin_in = none := hstop
    rw [k3] at hstop2
    by_contra hk
    have hlt2 : ls.length < lines.length := by omega
    obtain ⟨l, rest, hd⟩ : ∃ l rest, lines.drop ls.length = l :: rest := by
      cases hdrop : lines.drop ls.length with
      | nil =>
        have := congrArg List.length hdrop
        simp at this
        omega
      | cons l rest => exact ⟨l, rest, rfl⟩
    have hl : 10 ∉ l := hlines l (List.mem_of_mem_drop (by rw [hd]; exact List.mem_cons_self _ _))
    rw [hd, evbuffer_readln_unlines l rest tail hl] at hstop2
    simp at hstop2

/-! ## C8: malformed input lines -/

theorem micro_framed (s0 a b : config) (h : Micro a b) (ha : Framed s0 a) : Framed s0 b := by
  obtain ⟨h1, h2, h3, h4, h5, h6, h7, h8, added, h9⟩ := ha
  cases h with
  | admit_ok line left hrun hlt hrd =>
    exact ⟨h1, h2, h3, h4, h5, h6, h7, h8,
      added ++ [{ ip := inet_addr line, state := Phase.CONNECTING }], by
        simp only [admit_ok_state, h9, List.append_assoc]⟩
  | admit_fail line left hrun hlt hrd => exact ⟨h1, h2, h3, h4, h5, h6, h7, h8, added, h9⟩
  | exit0 hrun hclosed hzero => exact ⟨h1, h2, h3, h4, h5, h6, h7, h8, added, h9⟩

theorem framed_refl (a : config) : Framed a a :=
  ⟨rfl, rfl, rfl, rfl, rfl, rfl, rfl, rfl, [], by simp⟩

theorem micro_grown (s0 a b : config) (h : Micro a b) (ha : Grown s0 a) : Grown s0 b := by
  obtain ⟨more, h1, h2, h3⟩ := ha
  cases h with
  | admit_ok line left hrun hlt hrd =>
    refine ⟨more ++ [inet_addr line], ?_, ?_, ?_⟩
    · simp only [admit_ok_state, h1, List.append_assoc]
    · simp only [admit_ok_state, h2, List.length_append, List.length_singleton]
      push_cast
      omega
    · simp only [admit_ok_state, List.length_append, List.length_singleton]
      push_cast
      omega
  | admit_fail line left hrun hlt hrd =>
    refine ⟨more ++ [inet_addr line], ?_, ?_, ?_⟩
    · simp only [admit_fail_state, h1, List.append_assoc]
    · simp only [admit_fail_state, h2, List.length_append, List.length_singleton]
      push_cast
      omega
    · simp only [admit_fail_state, List.length_append, List.length_singleton]
      push_cast
      omega
  | exit0 hrun hclosed hzero => exact ⟨more, h1, h2, h3⟩

/-- The first round of `stdin_readcb` on a buffer that holds a complete line,
below the cap. -/
theorem stdin_readcb_first (s : config) (line left : List Nat) (hrun : s.exit_code = none)
    (hlt : s.current_running < s.max_concurrent)
    (hrd : evbuffer_readln s.stdin_in = some (line, left)) :
    ∃ m, (m = admit_ok_state s line left ∨ m = admit_fail_state s line left) ∧
      Chain m (stdin_readcb s) := by
  have hpos : s.stdin_in.length > 0 := by
    cases hb : s.stdin_in with
    | nil => rw [hb] at hrd; simp [evbuffer_readln] at hrd
    | cons c rest => simp
  unfold stdin_readcb
  rw [stdin_readcb_aux]
  simp only [hlt, hpos, and_self, if_true, hrd]
  by_cases hfail : ∃ later, s.connect_errors = true :: later
  · obtain ⟨later, hl⟩ := hfail
    refine ⟨_, Or.inr rfl, ?_⟩
    rw [grab_banner_fail _ s line left later hl]
    have hrun1 : (admit_fail_state s line left).exit_code = none := hrun
    have hc := chain_decrement_tail (stdin_readcb_aux s.stdin_in.length)
      (fun x hx => chain_aux _ x hx) _ hrun1
    split
    · exact hc
    · rename_i hne
      exact Chain.trans hc (chain_aux _ _ ((isSome_false_iff _).1 hne))
  · have hok : ∀ later, s.connect_errors ≠ true :: later := fun later hl => hfail ⟨later, hl⟩
    refine ⟨_, Or.inl rfl, ?_⟩
    rw [grab_banner_ok _ s line left hok]
    have hrun1 : (admit_ok_state s line left).exit_code = none := hrun
    simp only [hrun1, Option.isSome_none, Bool.false_eq_true, if_false]
    exact chain_aux _ _ hrun1

/-- C8, as the code has it.  A complete input line read below the cap is
admitted whether or not it is a valid dotted-quad: whatever `inet_addr` returns
for it is passed to `grab_banner` unchecked (first of the targets the call
admits), `init_connected_hosts` counts it, and `current_running` counts it
unless its connect call fails. -/
theorem line_always_admitted (s : config) (line left : List Nat) (hrun : s.exit_code = none)
    (hlt : s.current_running < s.max_concurrent)
    (hrd : evbuffer_readln s.stdin_in = some (line, left)) :
    ∃ more : List Nat,
      (stdin_readcb s).admitted = s.admitted ++ inet_addr line :: more ∧
      (stdin_readcb s).stats.init_connected_hosts =
        s.stats.init_connected_hosts + 1 + more.length ∧
      (stdin_readcb s).current_running + (stdin_readcb s).admission_failures =
        s.current_running + s.admission_failures + 1 + more.length := by
  obtain ⟨m, hm, hc⟩ := stdin_readcb_first s line left hrun hlt hrd
  obtain ⟨more, h1, h2, h3⟩ :=
    Chain.invariant (micro_grown m) hc ⟨[], by simp, by simp, by simp⟩
  refine ⟨more, ?_, ?_, ?_⟩
  · rcases hm with hm | hm <;> subst hm <;> simp [h1, admit_ok_state, admit_fail_state]
  · rcases hm with hm | hm <;> subst hm <;> rw [h2] <;> rfl
  · rcases hm with hm | hm <;> subst hm <;> rw [h3] <;>
      simp only [admit_ok_state, admit_fail_state] <;> omega

/-- C8 as stated fails: the line `x` is not a valid dotted-quad, yet
`stdin_readcb` admits it, so `current_running`, `init_connected_hosts` and the
admitted targets do not stay as they were. -/
theorem malformed_line_not_skipped :
    ¬ (is_dotted_quad [120] = false →
        (stdin_readcb malformed_input).current_running = malformed_input.current_running ∧
        (stdin_readcb malformed_input).stats.init_connected_hosts =
          malformed_input.stats.init_connected_hosts ∧
        (stdin_readcb malformed_input).admitted = malformed_input.admitted) := by
  decide

/-! ## C strings -/

theorem strstr_bytes_iff (hay needle : List Nat) :
    strstr_bytes hay needle = true ↔ needle <:+: hay := by
  induction hay with
  | nil =>
    simp only [strstr_bytes, List.isPrefixOf_iff_prefix, List.prefix_nil, List.infix_nil]
  | cons h t ih =>
    simp only [strstr_bytes, Bool.or_eq_true, List.isPrefixOf_iff_prefix, ih, List.infix_cons_iff]

theorem cstr_append_of_mem : ∀ (data junk : List Nat), 0 ∈ data →
    cstr (data ++ junk) = cstr data := by
  intro data
  induction data with
  | nil => intro junk h; simp at h
  | cons c data ih =>
    intro junk h
    by_cases hc : c = 0
    · subst hc
      simp [cstr]
    · have h2 : 0 ∈ data := by
        simp only [List.mem_cons] at h
        rcases h with h | h
        · exact absurd h.symm hc
        · exact h
      have := ih junk h2
      unfold cstr at this ⊢
      simp [List.takeWhile, hc, this]

theorem cstr_append_of_not_mem : ∀ (data junk : List Nat), 0 ∉ data →
    cstr (data ++ junk) = data ++ cstr junk := by
  intro data
  induction data with
  | nil => intro junk _; rfl
  | cons c data ih =>
    intro junk h
    simp only [List.mem_cons, not_or] at h
    have hc : (c != 0) = true := by
      simp only [bne_iff_ne, ne_eq]
      exact fun e => h.1 e.symm
    have := ih junk h.2
    unfold cstr at this ⊢
    simp only [List.cons_append, List.takeWhile, hc]
    exact congrArg (c :: ·) this

theorem cstr_of_not_mem (data : List Nat) (h : 0 ∉ data) : cstr data = data := by
  have := cstr_append_of_not_mem data [] h
  simpa [cstr] using this

theorem cstr_terminated (data : List Nat) : cstr (data ++ [0]) = cstr data := by
  by_cases h : 0 ∈ data
  · exact cstr_append_of_mem data [0] h
  · rw [cstr_append_of_not_mem data [0] h, cstr_of_not_mem data h]
    simp [cstr]

theorem octet_text_no_nul (n : Nat) : 0 ∉ octet_text n := by
  unfold octet_text
  split
  · simp only [List.mem_singleton]
    omega
  · split
    · simp only [List.mem_cons, List.mem_singleton, List.not_mem_nil, or_false]
      omega
    · simp only [List.mem_cons, List.mem_singleton, List.not_mem_nil, or_false]
      omega

theorem inet_ntoa_no_nul (ip : Nat) : 0 ∉ inet_ntoa ip := by
  unfold inet_ntoa
  simp only [List.mem_append, List.mem_singleton, not_or]
  exact ⟨⟨⟨⟨⟨⟨octet_text_no_nul _, by decide⟩, octet_text_no_nul _⟩, by decide⟩,
    octet_text_no_nul _⟩, by decide⟩, octet_text_no_nul _⟩

theorem emit_record_eq (format : Int) (ip : Nat) (data : List Nat) :
    emit_record format ip data =
      if format = 1 then inet_ntoa ip ++ [10]
      else inet_ntoa ip ++ [32] ++ cstr data ++ [10] := by
  unfold emit_record
  rw [cstr_of_not_mem _ (inet_ntoa_no_nul ip), cstr_terminated]
  split <;> simp

theorem matched_none (s : config) (data junk : List Nat) (h : s.search_string = none) :
    matched s data junk = true := by
  simp [matched, h]

theorem matched_some (s : config) (data junk needle : List Nat)
    (h : s.search_string = some needle) :
    matched s data junk = true ↔ cstr needle <:+: cstr (data ++ junk) := by
  simp [matched, h, strstr, strstr_bytes_iff]

/-! ## C3, C4, C9: what `read_cb` and `connect_cb` report -/

theorem read_cb_framed (s : config) (i : Nat) (st : state) (data junk : List Nat)
    (hrun : s.exit_code = none) (hlive : s.live[i]? = some st) (hdata : data ≠ []) :
    Framed (received_state s i st data junk) (read_cb s i data junk true) := by
  rw [read_cb_received s i st data junk hlive hdata]
  exact Chain.invariant (micro_framed _)
    (chain_decrement_tail stdin_readcb chain_stdin_readcb _ hrun) (framed_refl _)

theorem read_cb_matched (s : config) (i : Nat) (st : state) (data junk : List Nat)
    (hrun : s.exit_code = none) (hlive : s.live[i]? = some st) (hdata : data ≠ [])
    (hm : matched s data junk = true) :
    (read_cb s i data junk true).stdout = s.stdout ++ emit_record s.format st.ip data ∧
    (read_cb s i data junk true).stats.found = s.stats.found + 1 ∧
    (read_cb s i data junk true).stats.completed_hosts = s.stats.completed_hosts + 1 := by
  obtain ⟨h1, _, h3, h4, _⟩ := read_cb_framed s i st data junk hrun hlive hdata
  rw [h1, h3, h4]
  simp [received_state, hm]

theorem read_cb_unmatched (s : config) (i : Nat) (st : state) (data junk : List Nat)
    (hrun : s.exit_code = none) (hlive : s.live[i]? = some st) (hdata : data ≠ [])
    (hm : matched s data junk = false) :
    (read_cb s i data junk true).stdout = s.stdout ∧
    (read_cb s i data junk true).stats.found = s.stats.found ∧
    (read_cb s i data junk true).stats.completed_hosts = s.stats.completed_hosts + 1 := by
  obtain ⟨h1, _, h3, h4, _⟩ := read_cb_framed s i st data junk hrun hlive hdata
  rw [h1, h3, h4]
  simp [received_state, hm]

/-- C3, as the code has it.  For a response of one or more bytes: without a
`search_string` a record is written and `found` goes up by one; with a
`search_string` and a response that holds a NUL byte, a record is written and
`found` goes up by one exactly when the `search_string` occurs in the response
bytes before the first NUL, and otherwise nothing is written and `found` stays;
with a `search_string` that occurs in a response without NUL byte, a record is
written and `found` goes up by one.  The record is never empty. -/
theorem match_semantics (s : config) (i : Nat) (st : state) (data junk : List Nat)
    (hrun : s.exit_code = none) (hlive : s.live[i]? = some st) (hdata : data ≠ []) :
    (s.search_string = none →
      (read_cb s i data junk true).stdout = s.stdout ++ emit_record s.format st.ip data ∧
      (read_cb s i data junk true).stats.found = s.stats.found + 1) ∧
    (∀ needle, s.search_string = some needle → 0 ∈ data →
      (cstr needle <:+: cstr data →
        (read_cb s i data junk true).stdout = s.stdout ++ emit_record s.format st.ip data ∧
        (read_cb s i data junk true).stats.found = s.stats.found + 1) ∧
      (¬ cstr needle <:+: cstr data →
        (read_cb s i data junk true).stdout = s.stdout ∧
        (read_cb s i data junk true).stats.found = s.stats.found)) ∧
    (∀ needle, s.search_string = some needle → 0 ∉ data → cstr needle <:+: data →
      (read_cb s i data junk true).stdout = s.stdout ++ emit_record s.format st.ip data ∧
      (read_cb s i data junk true).stats.found = s.stats.found + 1) ∧
    emit_record s.format st.ip data ≠ [] := by
  refine ⟨?_, ?_, ?_, ?_⟩
  · intro hs
    have h := read_cb_matched s i st data junk hrun hlive hdata (matched_none s data junk hs)
    exact ⟨h.1, h.2.1⟩
  · intro needle hs hnul
    have hiff := matched_some s data junk needle hs
    rw [cstr_append_of_mem data junk hnul] at hiff
    constructor
    · intro hin
      have h := read_cb_matched s i st data junk hrun hlive hdata (hiff.2 hin)
      exact ⟨h.1, h.2.1⟩
    · intro hin
      have hm : matched s data junk = false := by
        cases hv : matched s data junk with
        | false => rfl
        | true => exact absurd (hiff.1 hv) hin
      have h := read_cb_unmatched s i st data junk hrun hlive hdata hm
      exact ⟨h.1, h.2.1⟩
  · intro needle hs hnul hin
    have hiff := matched_some s data junk needle hs
    rw [cstr_append_of_not_mem data junk hnul] at hiff
    have hin2 : cstr needle <:+: data ++ cstr junk := by
      obtain ⟨a, b, hab⟩ := hin
      exact ⟨a, b ++ cstr junk, by rw [← hab]; simp⟩
    have h := read_cb_matched s i st data junk hrun hlive hdata (hiff.2 hin2)
    exact ⟨h.1, h.2.1⟩
  · rw [emit_record_eq]
    split <;> simp

/-- C3 as stated fails: `SSH` occurs in the response `\0SSH`, yet with
`search_string = "SSH"` the response is not counted in `found`. -/
theorem nul_hides_match :
    ¬ ([83, 83, 72] <:+: [0, 83, 83, 72] →
        (read_cb (one_connected 0 (some [83, 83, 72])) 0 [0, 83, 83, 72] [] true).stats.found =
          (one_connected 0 (some [83, 83, 72])).stats.found + 1) := by
  intro h
  have h2 := h ⟨[0], [], rfl⟩
  revert h2
  decide

/-- C4, as the code has it.  For a matched response from target `ip` the text
written to standard output is the dotted-quad and a newline when `format` is 1;
otherwise it is the dotted-quad, a space, the response bytes before the first
NUL byte and a newline, which for a response without NUL byte is the dotted-quad,
a space, the response and a newline. -/
theorem record_format (s : config) (i : Nat) (st : state) (data junk : List Nat)
    (hrun : s.exit_code = none) (hlive : s.live[i]? = some st) (hdata : data ≠ [])
    (hm : matched s data junk = true) :
    (s.format = 1 →
      (read_cb s i data junk true).stdout = s.stdout ++ (inet_ntoa st.ip ++ [10])) ∧
    (s.format ≠ 1 →
      (read_cb s i data junk true).stdout =
        s.stdout ++ (inet_ntoa st.ip ++ [32] ++ cstr data ++ [10])) ∧
    (s.format ≠ 1 → 0 ∉ data →
      (read_cb s i data junk true).stdout =
        s.stdout ++ (inet_ntoa st.ip ++ [32] ++ data ++ [10])) := by
  have h := (read_cb_matched s i st data junk hrun hlive hdata hm).1
  rw [emit_record_eq] at h
  refine ⟨?_, ?_, ?_⟩
  · intro hf
    rw [h, if_pos hf]
  · intro hf
    rw [h, if_neg hf]
  · intro hf hnul
    rw [h, if_neg hf, cstr_of_not_mem data hnul]

/-- C4 as stated fails: for the response `A\0B` in the format `ip_and_body` the
text written is not the address, a space, the three response bytes and a
newline. -/
theorem record_cut_at_nul :
    ¬ ((read_cb (one_connected 0 none) 0 [65, 0, 66] [] true).stdout =
        (one_connected 0 none).stdout ++ (inet_ntoa 16909060 ++ [32] ++ [65, 0, 66] ++ [10])) := by
  decide

theorem connect_cb_framed (s : config) (i : Nat) (st : state)
    (hrun : s.exit_code = none) (hlive : s.live[i]? = some st) :
    Framed (timeout_state s i st) (connect_cb s i false) := by
  rw [connect_cb_timeout s i st hlive]
  exact Chain.invariant (micro_framed _)
    (chain_decrement_tail stdin_readcb chain_stdin_readcb _ hrun) (framed_refl _)

theorem read_cb_zero_framed (s : config) (i : Nat) (st : state) (junk : List Nat) (buf_ok : Bool)
    (hrun : s.exit_code = none) (hlive : s.live[i]? = some st) :
    Framed (zero_state s i) (read_cb s i [] junk buf_ok) := by
  rw [read_cb_zero s i st junk buf_ok hlive]
  exact Chain.invariant (micro_framed _)
    (chain_decrement_tail stdin_readcb chain_stdin_readcb _ hrun) (framed_refl _)

/-- C9, as the code has it.  For a connected task: when the read callback
fires with zero bytes the task is reaped, nothing is written, and `found`,
`completed_hosts`, `read_timed_out` and `timed_out` stay as they are; when the
peer closes with zero bytes (`connect_cb` with an event other than connected)
the task is reaped, nothing is written, `found` and `completed_hosts` stay as
they are and `read_timed_out` and `timed_out` go up by one. -/
theorem zero_byte_response (s : config) (i : Nat) (st : state) (junk : List Nat) (buf_ok : Bool)
    (hrun : s.exit_code = none) (hlive : s.live[i]? = some st)
    (hst : st.state = Phase.CONNECTED) :
    ((read_cb s i [] junk buf_ok).stdout = s.stdout ∧
      (read_cb s i [] junk buf_ok).stats.found = s.stats.found ∧
      (read_cb s i [] junk buf_ok).stats.completed_hosts = s.stats.completed_hosts ∧
      (read_cb s i [] junk buf_ok).stats.read_timed_out = s.stats.read_timed_out ∧
      (read_cb s i [] junk buf_ok).stats.timed_out = s.stats.timed_out ∧
      ∃ added, (read_cb s i [] junk buf_ok).live = s.live.eraseIdx i ++ added) ∧
    ((connect_cb s i false).stdout = s.stdout ∧
      (connect_cb s i false).stats.found = s.stats.found ∧
      (connect_cb s i false).stats.completed_hosts = s.stats.completed_hosts ∧
      (connect_cb s i false).stats.read_timed_out = s.stats.read_timed_out + 1 ∧
      (connect_cb s i false).stats.timed_out = s.stats.timed_out + 1 ∧
      ∃ added, (connect_cb s i false).live = s.live.eraseIdx i ++ added) := by
  obtain ⟨a1, _, a3, a4, a5, a6, _, _, a9⟩ := read_cb_zero_framed s i st junk buf_ok hrun hlive
  obtain ⟨b1, _, b3, b4, b5, b6, _, _, b9⟩ := connect_cb_framed s i st hrun hlive
  refine ⟨⟨a1, a3, a4, a5, a6, a9⟩, ⟨b1, b3, b4, ?_, ?_, b9⟩⟩
  · rw [b5]
    simp [timeout_state, hst]
  · rw [b6]
    rfl

/-- C9 as stated fails: on a connected task neither the read callback with
zero bytes nor the close of the peer raises `completed_hosts`, and the close of
the peer is counted as a read timeout. -/
theorem zero_bytes_not_completed :
    ¬ ((read_cb (one_connected 0 none) 0 [] [] true).stats.completed_hosts =
        (one_connected 0 none).stats.completed_hosts + 1) ∧
    ¬ ((connect_cb (one_connected 0 none) 0 false).stats.completed_hosts =
        (one_connected 0 none).stats.completed_hosts + 1) ∧
    (connect_cb (one_connected 0 none) 0 false).stats.read_timed_out =
      (one_connected 0 none).stats.read_timed_out + 1 := by
  decide

/-! ## C10: the payload -/

theorem printf_s_plain (n : Nat) : ∀ (t : List Nat) (k : Nat) (rep : List Nat),
    t.length ≤ n → plain_template t = true → placeholders t ≤ k →
    printf_s t (List.replicate k rep) = some (spec_render k (cstr rep) t) := by
  induction n with
  | zero =>
    intro t k rep hlen _ _
    have : t = [] := List.length_eq_zero.1 (Nat.le_zero.1 hlen)
    subst this
    rfl
  | succ n ih =>
    intro t k rep hlen hp hc
    match t, hlen, hp, hc with
    | [], _, _, _ => rfl
    | [c], _, hp, _ =>
      simp only [plain_template, Bool.and_eq_true, decide_eq_true_eq] at hp
      simp [printf_s, spec_render, hp.1, hp.2]
    | c :: d :: rest, hlen, hp, hc =>
      simp only [List.length_cons] at hlen
      by_cases h37 : c = 37
      · subst h37
        simp only [plain_template, if_true, Bool.and_eq_true, decide_eq_true_eq] at hp
        obtain ⟨hd, hp2⟩ := hp
        subst hd
        simp only [placeholders, and_self, if_true] at hc
        cases k with
        | zero => omega
        | succ k =>
          have := ih rest k rep (by omega) hp2 (by omega)
          simp [printf_s, spec_render, List.replicate_succ, this]
      · simp only [plain_template, h37, if_false, Bool.and_eq_true, decide_eq_true_eq] at hp
        obtain ⟨h0, hp2⟩ := hp
        simp only [placeholders, h37, false_and, if_false] at hc
        have := ih (d :: rest) k rep (by simp only [List.length_cons]; omega) hp2 hc
        simp [printf_s, spec_render, h37, h0, this]

/-- C10, as the code has it.  For a `send_str` without NUL bytes in which every
`%` starts a placeholder `%s`, with at most four placeholders, the payload
written on the connected event is the template with each placeholder replaced
by the dotted-quad of the target and every other byte copied. -/
theorem template_rendering (s : config) (i : Nat) (st : state) (t : List Nat)
    (hlive : s.live[i]? = some st) (hsend : s.send_str = some t)
    (hplain : plain_template t = true) (hcount : placeholders t ≤ 4) :
    (connect_cb s i true).wire =
      s.wire ++ [(st.ip, some (spec_render 4 (inet_ntoa st.ip) t))] := by
  rw [connect_cb_connected s i st hlive]
  have h := printf_s_plain t.length t 4 (inet_ntoa st.ip) (Nat.le_refl _) hplain hcount
  rw [cstr_of_not_mem _ (inet_ntoa_no_nul st.ip)] at h
  have h4 : List.replicate 4 (inet_ntoa st.ip) =
      [inet_ntoa st.ip, inet_ntoa st.ip, inet_ntoa st.ip, inet_ntoa st.ip] := rfl
  rw [h4] at h
  simp only [connected_state, hsend, h]

/-- C10 as stated fails: with five placeholders the payload is not the
template with the first four replaced and the fifth left as text (the fifth
`%s` has no argument), and the template `%%`, which has no placeholder, is not
copied unchanged. -/
theorem fifth_placeholder_not_literal :
    ¬ ((connect_cb (one_connecting (some [37, 115, 37, 115, 37, 115, 37, 115, 37, 115])) 0 true).wire =
        (one_connecting (some [37, 115, 37, 115, 37, 115, 37, 115, 37, 115])).wire ++
          [(16909060, some (spec_render 4 (inet_ntoa 16909060)
            [37, 115, 37, 115, 37, 115, 37, 115, 37, 115]))]) ∧
    ¬ ((connect_cb (one_connecting (some [37, 37])) 0 true).wire =
        (one_connecting (some [37, 37])).wire ++
          [(16909060, some (spec_render 4 (inet_ntoa 16909060) [37, 37]))]) := by
  decide

/-! ## The theorems at concrete inputs -/

theorem concurrency_bound_witness :
    (0 : Int) ≤ 2 ∧
    ((run (init 22 5 5 2 16777216 0 none none [true, false])
        [Event.stdin_data [49, 46, 50, 46, 51, 46, 52, 10, 120, 10, 53, 46, 54, 46, 55, 46, 56, 10],
         Event.connect_event 0 true]).current_running ≤ 2 ∧
     (run (init 22 5 5 2 16777216 0 none none [true, false])
        [Event.stdin_data [49, 46, 50, 46, 51, 46, 52, 10, 120, 10, 53, 46, 54, 46, 55, 46, 56, 10],
         Event.connect_event 0 true]).peak_running ≤ 2 ∧
     (run (init 22 5 5 2 16777216 0 none none [true, false])
        [Event.stdin_data [49, 46, 50, 46, 51, 46, 52, 10, 120, 10, 53, 46, 54, 46, 55, 46, 56, 10],
         Event.connect_event 0 true]).max_concurrent = 2) :=
  ⟨by decide, concurrency_bound 22 5 5 2 16777216 0 none none [true, false]
    [Event.stdin_data [49, 46, 50, 46, 51, 46, 52, 10, 120, 10, 53, 46, 54, 46, 55, 46, 56, 10],
     Event.connect_event 0 true] (by decide)⟩

theorem shutdown_condition_witness :
    (run (init 80 5 5 4 16777216 0 none none []) scenario2).exit_code = some 0 ∧
    (run (init 80 5 5 4 16777216 0 none none []) scenario2).stdin_closed = true ∧
    (run (init 80 5 5 4 16777216 0 none none []) scenario2).current_running = 0 ∧
    (run (init 80 5 5 4 16777216 0 none none []) scenario2).live = [] :=
  have h := shutdown_condition 80 5 5 4 16777216 0 none none [] scenario2
  have he : (run (init 80 5 5 4 16777216 0 none none []) scenario2).exit_code = some 0 := by
    decide
  ⟨he, (h.1.1 he).1, (h.1.1 he).2, h.2.1 he⟩

theorem match_semantics_witness :
    (one_connected 0 (some [83, 83, 72])).exit_code = none ∧
    (one_connected 0 (some [83, 83, 72])).live[0]? = some ⟨16909060, Phase.CONNECTED⟩ ∧
    [72, 0, 83, 83, 72] ≠ [] ∧
    (0 ∈ [72, 0, 83, 83, 72] →
      (¬ cstr [83, 83, 72] <:+: cstr [72, 0, 83, 83, 72] →
        (read_cb (one_connected 0 (some [83, 83, 72])) 0 [72, 0, 83, 83, 72] [] true).stdout =
          (one_connected 0 (some [83, 83, 72])).stdout ∧
        (read_cb (one_connected 0 (some [83, 83, 72])) 0 [72, 0, 83, 83, 72] [] true).stats.found =
          (one_connected 0 (some [83, 83, 72])).stats.found)) :=
  ⟨by decide, by decide, by decide, fun hnul =>
    ((match_semantics (one_connected 0 (some [83, 83, 72])) 0 ⟨16909060, Phase.CONNECTED⟩
      [72, 0, 83, 83, 72] [] (by decide) (by decide) (by decide)).2.1
        [83, 83, 72] (by decide) hnul).2⟩

theorem record_format_witness :
    (one_connected 0 none).exit_code = none ∧
    (one_connected 0 none).live[0]? = some ⟨16909060, Phase.CONNECTED⟩ ∧
    [72, 69, 76, 76, 79, 10] ≠ [] ∧
    matched (one_connected 0 none) [72, 69, 76, 76, 79, 10] [] = true ∧
    ((one_connected 0 none).format ≠ 1 → 0 ∉ [72, 69, 76, 76, 79, 10] →
      (read_cb (one_connected 0 none) 0 [72, 69, 76, 76, 79, 10] [] true).stdout =
        (one_connected 0 none).stdout ++
          (inet_ntoa 16909060 ++ [32] ++ [72, 69, 76, 76, 79, 10] ++ [10])) :=
  ⟨by decide, by decide, by decide, by decide,
    (record_format (one_connected 0 none) 0 ⟨16909060, Phase.CONNECTED⟩
      [72, 69, 76, 76, 79, 10] [] (by decide) (by decide) (by decide) (by decide)).2.2⟩

theorem conservation_witness :
    in_order (init 22 5 5 2 16777216 0 none none [true, false])
      [Event.stdin_data [49, 46, 50, 46, 51, 46, 52, 10, 120, 10, 53, 46, 54, 46, 55, 46, 56, 10],
       Event.connect_event 0 true, Event.connect_event 1 false,
       Event.read_event 0 [72, 73] [] true] = true ∧
    (run (init 22 5 5 2 16777216 0 none none [true, false])
      [Event.stdin_data [49, 46, 50, 46, 51, 46, 52, 10, 120, 10, 53, 46, 54, 46, 55, 46, 56, 10],
       Event.connect_event 0 true, Event.connect_event 1 false,
       Event.read_event 0 [72, 73] [] true]).current_running = 0 ∧
    (run (init 22 5 5 2 16777216 0 none none [true, false])
      [Event.stdin_data [49, 46, 50, 46, 51, 46, 52, 10, 120, 10, 53, 46, 54, 46, 55, 46, 56, 10],
       Event.connect_event 0 true, Event.connect_event 1 false,
       Event.read_event 0 [72, 73] [] true]).stats.init_connected_hosts =
      (run (init 22 5 5 2 16777216 0 none none [true, false])
        [Event.stdin_data [49, 46, 50, 46, 51, 46, 52, 10, 120, 10, 53, 46, 54, 46, 55, 46, 56, 10],
         Event.connect_event 0 true, Event.connect_event 1 false,
         Event.read_event 0 [72, 73] [] true]).stats.connected_hosts +
      (run (init 22 5 5 2 16777216 0 none none [true, false])
        [Event.stdin_data [49, 46, 50, 46, 51, 46, 52, 10, 120, 10, 53, 46, 54, 46, 55, 46, 56, 10],
         Event.connect_event 0 true, Event.connect_event 1 false,
         Event.read_event 0 [72, 73] [] true]).stats.conn_timed_out +
      (run (init 22 5 5 2 16777216 0 none none [true, false])
        [Event.stdin_data [49, 46, 50, 46, 51, 46, 52, 10, 120, 10, 53, 46, 54, 46, 55, 46, 56, 10],
         Event.connect_event 0 true, Event.connect_event 1 false,
         Event.read_event 0 [72, 73] [] true]).admission_failures :=
  ⟨by decide, by decide,
    conservation 22 5 5 2 16777216 0 none none [true, false]
      [Event.stdin_data [49, 46, 50, 46, 51, 46, 52, 10, 120, 10, 53, 46, 54, 46, 55, 46, 56, 10],
       Event.connect_event 0 true, Event.connect_event 1 false,
       Event.read_event 0 [72, 73] [] true] (by decide) (by decide)⟩

theorem admission_order_witness :
    three_lines.exit_code = none ∧
    (∀ l ∈ [[49, 46, 50, 46, 51, 46, 52], [120], [53, 46, 54, 46, 55, 46, 56]], 10 ∉ l) ∧
    10 ∉ ([] : List Nat) ∧
    three_lines.stdin_in =
      unlines [[49, 46, 50, 46, 51, 46, 52], [120], [53, 46, 54, 46, 55, 46, 56]] ++ [] ∧
    ∃ k, k ≤ [[49, 46, 50, 46, 51, 46, 52], [120], [53, 46, 54, 46, 55, 46, 56]].length ∧
      (stdin_readcb three_lines).admitted = three_lines.admitted ++
        ([[49, 46, 50, 46, 51, 46, 52], [120], [53, 46, 54, 46, 55, 46, 56]].take k).map inet_addr ∧
      (stdin_readcb three_lines).stdin_in =
        unlines ([[49, 46, 50, 46, 51, 46, 52], [120], [53, 46, 54, 46, 55, 46, 56]].drop k) ++ [] ∧
      ((stdin_readcb three_lines).exit_code = none →
        (stdin_readcb three_lines).current_running < (stdin_readcb three_lines).max_concurrent →
        k = [[49, 46, 50, 46, 51, 46, 52], [120], [53, 46, 54, 46, 55, 46, 56]].length) :=
  ⟨by decide, by decide, by decide, by decide,
    admission_order three_lines [[49, 46, 50, 46, 51, 46, 52], [120], [53, 46, 54, 46, 55, 46, 56]] []
      (by decide) (by decide) (by decide) (by decide)⟩

theorem line_always_admitted_witness :
    malformed_input.exit_code = none ∧
    malformed_input.current_running < malformed_input.max_concurrent ∧
    evbuffer_readln malformed_input.stdin_in = some ([120], []) ∧
    ∃ more : List Nat,
      (stdin_readcb malformed_input).admitted = malformed_input.admitted ++ inet_addr [120] :: more ∧
      (stdin_readcb malformed_input).stats.init_connected_hosts =
        malformed_input.stats.init_connected_hosts + 1 + more.length ∧
      (stdin_readcb malformed_input).current_running +
          (stdin_readcb malformed_input).admission_failures =
        malformed_input.current_running + malformed_input.admission_failures + 1 + more.length :=
  ⟨by decide, by decide, by decide,
    line_always_admitted malformed_input [120] [] (by decide) (by decide) (by decide)⟩

theorem zero_byte_response_witness :
    (one_connected 0 none).exit_code = none ∧
    (one_connected 0 none).live[0]? = some ⟨16909060, Phase.CONNECTED⟩ ∧
    (⟨16909060, Phase.CONNECTED⟩ : state).state = Phase.CONNECTED ∧
    (connect_cb (one_connected 0 none) 0 false).stats.completed_hosts =
      (one_connected 0 none).stats.completed_hosts ∧
    (connect_cb (one_connected 0 none) 0 false).stats.read_timed_out =
      (one_connected 0 none).stats.read_timed_out + 1 :=
  ⟨by decide, by decide, rfl,
    (zero_byte_response (one_connected 0 none) 0 ⟨16909060, Phase.CONNECTED⟩ [] true
      (by decide) (by decide) rfl).2.2.2.1,
    (zero_byte_response (one_connected 0 none) 0 ⟨16909060, Phase.CONNECTED⟩ [] true
      (by decide) (by decide) rfl).2.2.2.2.1⟩

theorem template_rendering_witness :
    (one_connecting (some [71, 32, 37, 115, 10])).live[0]? = some ⟨16909060, Phase.CONNECTING⟩ ∧
    (one_connecting (some [71, 32, 37, 115, 10])).send_str = some [71, 32, 37, 115, 10] ∧
    plain_template [71, 32, 37, 115, 10] = true ∧
    placeholders [71, 32, 37, 115, 10] ≤ 4 ∧
    (connect_cb (one_connecting (some [71, 32, 37, 115, 10])) 0 true).wire =
      (one_connecting (some [71, 32, 37, 115, 10])).wire ++
        [(16909060, some (spec_render 4 (inet_ntoa 16909060) [71, 32, 37, 115, 10]))] :=
  ⟨by decide, by decide, by decide, by decide,
    template_rendering (one_connecting (some [71, 32, 37, 115, 10])) 0 ⟨16909060, Phase.CONNECTING⟩
      [71, 32, 37, 115, 10] (by decide) (by decide) (by decide) (by decide)⟩

end Bootymapper
